import Mathlib

/-!
# tradersDashboard gateway (`go-server/main.go`)

A shallow embedding of the Go gateway: the two proxy handlers
`tickersHandler` and `calculateHandler`, the start-up code of `main`
(environment override of `pythonCalculatorURL`, route registration), and the
part of the Go standard library these call (`net/url` query parsing,
`net/http` response writer, `http.Error`, `io.Copy`, `ServeMux` routing).

Conventions.
* A Go `string` / `[]byte` is a byte sequence.  It is represented by a Lean
  `String` whose characters stand for the bytes.
* A handler sees the result of `http.Get` for a URL: the oracle `Transport`.
  Every call of `http.Get` is recorded in `World.calls`, every `log.Printf`
  line in `World.logged` (without the time stamp prefix).
* A call of `http.Get` is not one request on the wire.  What a call does is
  `clientGet` over a `Network`: the URL is parsed first (a rejected URL sends
  nothing), then requests are sent and redirects followed, up to ten requests.
  `Network.Get` is the `Transport` this gives, `outboundGETs` the requests
  that the recorded calls put on the wire.
* The response is observed at the `http.ResponseWriter` interface: the status
  and header fixed by the first `WriteHeader`, and the bytes passed to `Write`.
  Writing to the client does not fail, and the backend body is read to its end.
* Library behaviour follows the current Go standard library: `url.ParseQuery`
  drops a piece with `;` and refuses more than 10000 pieces; `ServeMux` is
  the pattern mux of `net/http` (Go 1.22 and later), which routes on the
  escaped request path.
* `fmt.Sprintf` with `%s` verbs only is string concatenation.
-/

namespace TradersDashboard

/-! ## `net/http` headers -/

/-- Go `http.Header` (`map[string][]string`), as an association list. -/
abbrev Header := List (String × List String)

/-- Go `Header.Del`: remove the entry of `key`. -/
def Header.Del (h : Header) (key : String) : Header :=
  h.filter (fun kv => kv.1 != key)

/-- Go `Header.Set`: the entry of `key` becomes the single value `value`.
The keys used by this program are already in canonical form. -/
def Header.Set (h : Header) (key value : String) : Header :=
  (key, [value]) :: Header.Del h key

/-- Go `Header.Get`: the first value of `key`, or `""`. -/
def Header.Get (h : Header) (key : String) : String :=
  match h.lookup key with
  | some (v :: _) => v
  | _ => ""

/-! ## `net/url` -/

/-- Go `url.Values` (`map[string][]string`), as the list of `(key, value)`
pairs in the order `ParseQuery` adds them; `v[key]` is `Values.index v key`. -/
abbrev Values := List (String × String)

/-- The slice `v[key]`: all values of `key`, in order. -/
def Values.index (v : Values) (key : String) : List String :=
  (v.filter (fun kv => kv.1 == key)).map Prod.snd

/-- Go `Values.Get`: the first value of `key`, or `""` when there is none. -/
def Values.Get (v : Values) (key : String) : String :=
  match Values.index v key with
  | [] => ""
  | x :: _ => x

/-- Go `strings.Cut(s, sep)` for a one-byte separator: the text before the
first `sep`, the text after it, and whether `sep` was found. -/
def cut (sep : Char) (s : List Char) : List Char × List Char × Bool :=
  (s.takeWhile (fun c => c != sep), (s.dropWhile (fun c => c != sep)).tail,
    s.any (fun c => c == sep))

/-- Go `ishex`. -/
def ishex (c : Char) : Bool :=
  ('0' ≤ c ∧ c ≤ '9') || ('a' ≤ c ∧ c ≤ 'f') || ('A' ≤ c ∧ c ≤ 'F')

/-- Go `unhex`. -/
def unhex (c : Char) : Nat :=
  if '0' ≤ c ∧ c ≤ '9' then c.toNat - '0'.toNat
  else if 'a' ≤ c ∧ c ≤ 'f' then c.toNat - 'a'.toNat + 10
  else if 'A' ≤ c ∧ c ≤ 'F' then c.toNat - 'A'.toNat + 10
  else 0

/-- Go `url.QueryUnescape` (`unescape` in mode `encodeQueryComponent`):
`%XX` becomes the byte `XX`, `+` becomes a space; a `%` not followed by two
hex digits is an error (`none`). -/
def QueryUnescape : List Char → Option (List Char)
  | [] => some []
  | '%' :: a :: b :: rest =>
    if ishex a && ishex b then
      (QueryUnescape rest).map (fun t => Char.ofNat (unhex a * 16 + unhex b) :: t)
    else none
  | '%' :: _ => none
  | '+' :: rest => (QueryUnescape rest).map (fun t => ' ' :: t)
  | c :: rest => (QueryUnescape rest).map (fun t => c :: t)

/-- Go `url.PathUnescape`: `%XX` becomes the byte `XX`, a `+` stays; a `%` not
followed by two hex digits is an error (`none`). -/
def PathUnescape : List Char → Option (List Char)
  | [] => some []
  | '%' :: a :: b :: rest =>
    if ishex a && ishex b then
      (PathUnescape rest).map (fun t => Char.ofNat (unhex a * 16 + unhex b) :: t)
    else none
  | '%' :: _ => none
  | c :: rest => (PathUnescape rest).map (fun t => c :: t)

/-- One iteration of the loop of Go `url.parseQuery` on the piece `key` cut
off at `&`: pieces with a `;`, empty pieces and pieces that fail to unescape
add nothing. -/
def parseQueryPiece (m : Values) (key : List Char) : Values :=
  if key.any (fun c => c == ';') then m
  else if key = [] then m
  else
    let (k, value, _) := cut '=' key
    match QueryUnescape k with
    | none => m
    | some k1 =>
      match QueryUnescape value with
      | none => m
      | some v1 => m ++ [(String.mk k1, String.mk v1)]

/-- The loop `for query != ""` of Go `url.parseQuery`; `fuel` bounds the number
of iterations (each one consumes a piece of `query`). -/
def parseQueryLoop : Nat → Values → List Char → Values
  | 0, m, _ => m
  | fuel + 1, m, query =>
    if query = [] then m
    else
      let (key, rest, _) := cut '&' query
      parseQueryLoop fuel (parseQueryPiece m key) rest

/-- Go `url.ParseQuery`, the values only (the error is dropped, as
`URL.Query` does).  A query of more than 10000 pieces is refused as a whole
(`urlmaxqueryparams`). -/
def ParseQuery (query : String) : Values :=
  if query.data.count '&' + 1 > 10000 then []
  else parseQueryLoop (query.length + 1) [] query.data

/-- Go `url.URL` of a request, the parts that matter here.  `EscapedPath` is
the value of `EscapedPath()`, the path in its escaped form as the mux reads
it; `RawQuery` is the query as received. -/
structure URL where
  EscapedPath : String
  RawQuery : String
  deriving DecidableEq, Repr

/-- The field `Path` of Go `url.URL`: the path with its escapes decoded. -/
def URL.Path (u : URL) : String :=
  String.mk ((PathUnescape u.EscapedPath.data).getD u.EscapedPath.data)

/-- Go `(*URL).Query`. -/
def URL.Query (u : URL) : Values :=
  ParseQuery u.RawQuery

/-- Go `url.Error`, the error type `http.Get` returns. -/
structure URLError where
  Op : String
  URL : String
  Err : String
  deriving DecidableEq, Repr

/-- Go `(*url.Error).Error`: the format `"%s %q: %s"`.  The URL is printed
between double quotes (its inner escaping by `%q` is not modelled). -/
def URLError.Error (e : URLError) : String :=
  e.Op ++ " \"" ++ e.URL ++ "\": " ++ e.Err

/-! ## `net/http` requests, responses and the response writer -/

/-- Go `http.Request`, as received by a handler. -/
structure Request where
  Method : String
  Host : String
  URL : URL
  Header : Header
  deriving DecidableEq, Repr

/-- Go `http.Response`, as returned by `http.Get`.  `Body` is the reader: the
chunks that successive `Read` calls deliver before the end of the stream. -/
structure Response where
  StatusCode : Nat
  Header : Header
  Body : List String
  deriving DecidableEq, Repr

/-- The backend body bytes: everything the body reader delivers. -/
def Response.bytes (resp : Response) : String :=
  String.join resp.Body

/-- The network seen through `http.Get`. -/
abbrev Transport := String → Except URLError Response

/-- Go `http.ResponseWriter` of the server (`*http.response`).  `header` is the
map the handler edits; `WriteHeader` fixes `status` and sends a snapshot of the
map (`sentHeader`); `body` collects the bytes written. -/
structure ResponseWriter where
  header : Header
  wroteHeader : Bool
  status : Nat
  sentHeader : Header
  body : String
  deriving DecidableEq, Repr

/-- The writer the server hands to a handler. -/
def ResponseWriter.fresh : ResponseWriter :=
  { header := [], wroteHeader := false, status := 0, sentHeader := [], body := "" }

def StatusOK : Nat := 200
def StatusBadRequest : Nat := 400
def StatusNotFound : Nat := 404
def StatusInternalServerError : Nat := 500

/-- `w.Header().Set(key, value)`. -/
def ResponseWriter.HeaderSet (w : ResponseWriter) (key value : String) : ResponseWriter :=
  { w with header := Header.Set w.header key value }

/-- `w.Header().Del(key)`. -/
def ResponseWriter.HeaderDel (w : ResponseWriter) (key : String) : ResponseWriter :=
  { w with header := Header.Del w.header key }

/-- `w.WriteHeader(code)`: the first call fixes the status and the headers
sent; a later call changes nothing. -/
def ResponseWriter.WriteHeader (w : ResponseWriter) (code : Nat) : ResponseWriter :=
  if w.wroteHeader then w
  else { w with wroteHeader := true, status := code, sentHeader := w.header }

/-- `w.Write(p)`: an implicit `WriteHeader(StatusOK)` if none was sent yet,
then the bytes are appended to the body. -/
def ResponseWriter.Write (w : ResponseWriter) (p : String) : ResponseWriter :=
  let w1 := if w.wroteHeader then w else w.WriteHeader StatusOK
  { w1 with body := w1.body ++ p }

/-- Go `http.Error`. -/
def Error (w : ResponseWriter) (error : String) (code : Nat) : ResponseWriter :=
  let w := w.HeaderDel "Content-Length"
  let w := w.HeaderSet "Content-Type" "text/plain; charset=utf-8"
  let w := w.HeaderSet "X-Content-Type-Options" "nosniff"
  let w := w.WriteHeader code
  w.Write (error ++ "\n")

/-- Go `io.Copy(w, body)`: every non-empty chunk read is written, until the
reader is exhausted. -/
def ioCopy (w : ResponseWriter) : List String → ResponseWriter
  | [] => w
  | chunk :: rest => ioCopy (if chunk.length > 0 then w.Write chunk else w) rest

/-- What the server does when the handler returns (`finishRequest`): a response
whose header was never written gets `WriteHeader(StatusOK)`. -/
def finishRequest (w : ResponseWriter) : ResponseWriter :=
  if w.wroteHeader then w else w.WriteHeader StatusOK

/-! ## The program state -/

/-- The process: the package variable `pythonCalculatorURL`, the environment,
the trace of `http.Get` calls and the log. -/
structure World where
  pythonCalculatorURL : String
  environ : List (String × String)
  calls : List String
  logged : List String
  deriving DecidableEq, Repr

/-- `var pythonCalculatorURL = "http://python-server:8001"`. -/
def defaultPythonCalculatorURL : String := "http://python-server:8001"

/-- The process before `main` runs, in environment `env`. -/
def World.initial (env : List (String × String)) : World :=
  { pythonCalculatorURL := defaultPythonCalculatorURL, environ := env, calls := [], logged := [] }

/-- Go `os.Getenv`: the value of the variable, `""` when it is not set. -/
def Getenv (s : World) (key : String) : String :=
  (s.environ.lookup key).getD ""

/-- Go `http.Get(url)` as the handler sees it: the call is recorded in `calls`
(one entry per call, whatever the call then sends) and `net` gives its
result. -/
def httpGet (net : Transport) (s : World) (url : String) : World × Except URLError Response :=
  ({ s with calls := s.calls ++ [url] }, net url)

/-- Go `log.Printf` (the line, without time stamp). -/
def logPrintf (s : World) (line : String) : World :=
  { s with logged := s.logged ++ [line] }

/-! ## `main.go` -/

/-- `tickersHandler` of `main.go`. -/
def tickersHandler (net : Transport) (s : World) (w : ResponseWriter) (_r : Request) :
    World × ResponseWriter :=
  let reqURL := s.pythonCalculatorURL ++ "/tickers"
  match httpGet net s reqURL with
  | (s, .error err) =>
    let w := Error w "Failed to connect to calculation service" StatusInternalServerError
    let s := logPrintf s ("Error connecting to Python tickers endpoint: " ++ err.Error)
    (s, w)
  | (s, .ok resp) =>
    let w := w.HeaderSet "Content-Type" "application/json"
    (s, ioCopy w resp.Body)

/-- `calculateHandler` of `main.go`. -/
def calculateHandler (net : Transport) (s : World) (w : ResponseWriter) (r : Request) :
    World × ResponseWriter :=
  let benchmarkTicker := Values.Get r.URL.Query "benchmark_ticker"
  if benchmarkTicker = "" then
    (s, Error w "Missing 'benchmark_ticker' query parameter" StatusBadRequest)
  else
    let reqURL := s.pythonCalculatorURL ++ "/calculate?benchmark_ticker=" ++ benchmarkTicker
    match httpGet net s reqURL with
    | (s, .error err) =>
      let w := Error w "Failed to connect to calculation service" StatusInternalServerError
      let s := logPrintf s ("Error connecting to Python calculate endpoint: " ++ err.Error)
      (s, w)
    | (s, .ok resp) =>
      let w := w.HeaderSet "Content-Type" "application/json"
      (s, ioCopy w resp.Body)

/-- The first statement of `main`: the environment override of
`pythonCalculatorURL`. -/
def mainInit (s : World) : World :=
  let url := Getenv s "PYTHON_CALCULATOR_URL"
  if url ≠ "" then { s with pythonCalculatorURL := url } else s

/-- A handler run by the server on a fresh writer, the response finished when
the handler returns. -/
def serve (h : World → ResponseWriter → Request → World × ResponseWriter)
    (s : World) (r : Request) : World × ResponseWriter :=
  let (s1, w) := h s ResponseWriter.fresh r
  (s1, finishRequest w)

/-! ## The HTTP client: what a call of `http.Get` sends -/

/-- Go `stringContainsCTLByte`: a byte below `0x20`, or `0x7f`. -/
def stringContainsCTLByte (s : List Char) : Bool :=
  s.any (fun c => decide (c.toNat < 0x20) || c.toNat == 0x7f)

/-- Whether Go `unescape` accepts the text: every `%` is followed by two hex
digits. -/
def validEscapes : List Char → Bool
  | [] => true
  | '%' :: a :: b :: rest => ishex a && ishex b && validEscapes rest
  | '%' :: _ => false
  | _ :: rest => validEscapes rest

/-- The loop of Go `getScheme`: letters go on; a digit, `+`, `-` or `.` go on
unless they come first; a `:` ends the scheme, and is an error when it comes
first (`none`); any other byte means that there is no scheme. -/
def getSchemeLoop (rawURL : List Char) : Nat → List Char → Option (List Char × List Char)
  | _, [] => some ([], rawURL)
  | i, c :: rest =>
    if ('a' ≤ c ∧ c ≤ 'z') ∨ ('A' ≤ c ∧ c ≤ 'Z') then getSchemeLoop rawURL (i + 1) rest
    else if ('0' ≤ c ∧ c ≤ '9') ∨ c = '+' ∨ c = '-' ∨ c = '.' then
      if i = 0 then some ([], rawURL) else getSchemeLoop rawURL (i + 1) rest
    else if c = ':' then
      if i = 0 then none else some (rawURL.take i, rest)
    else some ([], rawURL)

/-- Go `getScheme`: the scheme and what follows its colon. -/
def getScheme (rawURL : List Char) : Option (List Char × List Char) :=
  getSchemeLoop rawURL 0 rawURL

/-- The errors of Go `url.Parse` that are modelled: a control byte before the
fragment, a colon at the very start (`missing protocol scheme`), and a
malformed `%` escape in the fragment (`setFragment`). -/
def urlParseError (rawURL : String) : Option URLError :=
  let (u, frag, _) := cut '#' rawURL.data
  if stringContainsCTLByte u then
    some { Op := "parse", URL := String.mk u,
           Err := "net/url: invalid control character in URL" }
  else if getScheme u = none then
    some { Op := "parse", URL := String.mk u, Err := "missing protocol scheme" }
  else if !validEscapes frag then
    some { Op := "parse", URL := rawURL, Err := "invalid URL escape" }
  else none

/-- The checks of the HTTP transport before it sends: the scheme is `http` or
`https` (in any case), and the URL names a host: after the scheme comes `//`
and a non-empty authority. -/
def transportError (rawURL : String) : Option URLError :=
  let (u, _, _) := cut '#' rawURL.data
  match getScheme u with
  | none => none
  | some (scheme, rest) =>
    if scheme.map Char.toLower ≠ "http".data ∧ scheme.map Char.toLower ≠ "https".data then
      some { Op := "Get", URL := rawURL, Err := "unsupported protocol scheme" }
    else if ((cut '?' rest).1.take 2 = ['/', '/'] ∧
        (((cut '?' rest).1.drop 2).takeWhile (fun c => c != '/')) ≠ []) then none
    else some { Op := "Get", URL := rawURL, Err := "http: no Host in request URL" }

/-- The query part of a URL text: the fragment is cut off at the first `#`; of
what is left, a lone final `?` gives an empty query (`ForceQuery`), otherwise
the query is what follows the first `?`.  (The scheme that `getScheme` splits
off before holds no `?`, so it plays no part.) -/
def splitRawQuery (rawURL : String) : String :=
  let (u, _, _) := cut '#' rawURL.data
  if u.getLast? = some '?' ∧ u.count '?' = 1 then ""
  else
    let (_, query, _) := cut '?' u
    String.mk query

/-- The `RawQuery` that Go `url.Parse` extracts from `rawURL`; `none` when
`url.Parse` fails with one of the modelled errors. -/
def parseRawQuery (rawURL : String) : Option String :=
  match urlParseError rawURL with
  | some _ => none
  | none => some (splitRawQuery rawURL)

/-- What lies between `http.Get` and the backend.
* `malformed` stands for the checks of `url.Parse` that are not modelled (the
  syntax of user info, host and port, the escapes of the path): the error, if
  the URL fails one of them.
* `roundTrip sent url` is the answer to one GET for `url`, the requests in
  `sent` having been sent before it in the same call.
* `resolve url loc` is the URL of a `Location` header `loc` received for
  `url` (Go `(*URL).Parse`), `none` when it does not parse. -/
structure Network where
  malformed : String → Option URLError
  roundTrip : List String → String → Except String Response
  resolve : String → String → Option String

/-- The error, if any, with which `http.Get` gives up before sending. -/
def Network.rejected (nw : Network) (url : String) : Option URLError :=
  match urlParseError url with
  | some e => some e
  | none =>
    match nw.malformed url with
    | some e => some e
    | none => transportError url

/-- Go `redirectBehavior` for a GET without body: the statuses that the client
follows. -/
def shouldRedirect (status : Nat) : Bool :=
  status == 301 || status == 302 || status == 303 || status == 307 || status == 308

/-- The loop of Go `Client.do` with the default redirect policy.  `sent` holds
the requests sent so far, `url` is the next one; `budget` is the number of
requests still allowed (ten in all: `stopped after 10 redirects`).  The result
is the list of requests sent and what `http.Get` returns.  A request is
recorded by the URL it is made for (on the wire the fragment is left out). -/
def clientDo (nw : Network) : Nat → List String → String →
    List String × Except URLError Response
  | 0, sent, url =>
    (sent, .error { Op := "Get", URL := url, Err := "stopped after 10 redirects" })
  | budget + 1, sent, url =>
    match transportError url with
    | some e => (sent, .error e)
    | none =>
      match nw.roundTrip sent url with
      | .error err => (sent ++ [url], .error { Op := "Get", URL := url, Err := err })
      | .ok resp =>
        if shouldRedirect resp.StatusCode then
          if Header.Get resp.Header "Location" = "" then (sent ++ [url], .ok resp)
          else
            match nw.resolve url (Header.Get resp.Header "Location") with
            | none =>
              (sent ++ [url],
                .error { Op := "Get", URL := url, Err := "failed to parse Location header" })
            | some next => clientDo nw budget (sent ++ [url]) next
        else (sent ++ [url], .ok resp)

/-- Go `http.Get(url)` in full: the requests it sends, in order, and its
result.  A URL that does not parse sends nothing. -/
def clientGet (nw : Network) (url : String) : List String × Except URLError Response :=
  match Network.rejected nw url with
  | some e => ([], .error e)
  | none => clientDo nw 10 [] url

/-- The `Transport` that the network `nw` gives the handlers. -/
def Network.Get (nw : Network) : Transport :=
  fun url => (clientGet nw url).2

/-- The outbound GETs behind the recorded calls of `http.Get`. -/
def outboundGETs (nw : Network) (s : World) : List String :=
  s.calls.flatMap (fun url => (clientGet nw url).1)

/-- The query parameters that reach the backend with the first request of
`http.Get(rawURL)`, read by the rules of `url.ParseQuery` (those by which the
gateway reads its own inbound query); `none` when no request is sent. -/
def outboundQuery (nw : Network) (rawURL : String) : Option Values :=
  match Network.rejected nw rawURL with
  | some _ => none
  | none => (parseRawQuery rawURL).map ParseQuery

/-- The bytes that do not survive being placed unescaped in a query value. -/
def queryReserved (c : Char) : Bool :=
  c == '&' || c == ';' || c == '#' || c == '+' || c == '%'

/-! ## Routing: `path.Clean`, `cleanPath` and the pattern `ServeMux` -/

/-- The `..` case of Go `path.Clean` when it can backtrack: the buffer (held
last byte first) loses its last element and the slash before it, but never
shrinks below `dotdot` bytes. -/
def backtrack : List Char → Nat → List Char
  | [], _ => []
  | c :: rest, dotdot =>
    if rest.length > dotdot ∧ c ≠ '/' then backtrack rest dotdot else rest

/-- The main loop of Go `path.Clean`.  `rest` is the unread part of the path,
`out` the output buffer (last byte first), `dotdot` the length below which `..`
may not backtrack; `fuel` bounds the iterations, each of which reads at least
one byte. -/
def cleanLoop (rooted : Bool) : Nat → List Char → List Char → Nat → List Char
  | 0, _, out, _ => out
  | _ + 1, [], out, _ => out
  | fuel + 1, c :: rest, out, dotdot =>
    if c = '/' then
      cleanLoop rooted fuel rest out dotdot
    else if c = '.' ∧ (rest = [] ∨ rest.head? = some '/') then
      cleanLoop rooted fuel rest out dotdot
    else if c = '.' ∧ rest.head? = some '.' ∧
        (rest.tail = [] ∨ rest.tail.head? = some '/') then
      if out.length > dotdot then
        cleanLoop rooted fuel rest.tail (backtrack out dotdot) dotdot
      else if !rooted then
        let out1 := if out.length > 0 then '/' :: out else out
        let out2 := '.' :: '.' :: out1
        cleanLoop rooted fuel rest.tail out2 out2.length
      else
        cleanLoop rooted fuel rest.tail out dotdot
    else
      let out1 :=
        if (rooted && out.length != 1) || (!rooted && out.length != 0) then '/' :: out
        else out
      let elem := (c :: rest).takeWhile (fun x => x != '/')
      cleanLoop rooted fuel ((c :: rest).dropWhile (fun x => x != '/'))
        (elem.reverse ++ out1) dotdot

/-- Go `path.Clean`. -/
def pathClean (path : List Char) : List Char :=
  if path = [] then ['.']
  else
    let rooted : Bool := path.head? = some '/'
    let out :=
      if rooted then cleanLoop rooted (path.length + 1) path.tail ['/'] 1
      else cleanLoop rooted (path.length + 1) path [] 0
    if out = [] then ['.'] else out.reverse

/-- Go `cleanPath` of `net/http`: the canonical form of a request path. -/
def cleanPath (p : String) : String :=
  if p = "" then "/"
  else
    let p : String := if p.data.head? ≠ some '/' then "/" ++ p else p
    let np : String := String.mk (pathClean p.data)
    if p.data.getLast? = some '/' ∧ np ≠ "/" then
      if p.length = np.length + 1 ∧ np.data.isPrefixOf p.data then p else np ++ "/"
    else np

/-- What a `ServeMux` entry can hold in this program, and what the mux can
answer with: a registered handler, or the mux's own redirect (to the URL with
path `path` and query `rawQuery`; its 3xx status is not modelled), not-found or
bad-request answer. -/
inductive Handler where
  | fileServer (root : String)
  | tickersHandler
  | calculateHandler
  | redirect (path rawQuery : String)
  | notFound
  | badRequest
  deriving DecidableEq, Repr

/-- The helper `pathUnescape` of the mux: the segment unescaped, or as it is
when it does not unescape. -/
def pathUnescape (path : List Char) : List Char :=
  (PathUnescape path).getD path

/-- Go `pattern` of `net/http`, for a pattern that names no method and no host
and has no `{...}` wildcard: its literal segments, and whether it ends in a
slash (an anonymous multi wildcard). -/
structure pattern where
  str : String
  segments : List (List Char)
  multi : Bool
  deriving DecidableEq, Repr

/-- The segment loop of Go `parsePattern`: `rest` begins with a slash; a final
slash gives the multi wildcard, anything else up to the next slash a literal
segment. -/
def parseSegments : Nat → List Char → List (List Char) × Bool
  | 0, _ => ([], false)
  | fuel + 1, rest =>
    if rest = [] then ([], false)
    else if rest.tail = [] then ([], true)
    else
      let seg := rest.tail.takeWhile (fun c => c != '/')
      let (segs, multi) := parseSegments fuel (rest.tail.dropWhile (fun c => c != '/'))
      (pathUnescape seg :: segs, multi)

/-- Go `parsePattern`, for the patterns described at `pattern`. -/
def parsePattern (s : String) : pattern :=
  let (segs, multi) := parseSegments (s.length + 1) s.data
  { str := s, segments := segs, multi := multi }

/-- A pattern in the routing tree of the mux, seen from a node of the tree:
`rest` holds the segments of the pattern below the node. -/
structure routingEntry where
  rest : List (List Char)
  pat : pattern
  h : Handler
  deriving DecidableEq, Repr

/-- Go `routingNode`: a node of the routing tree, given by the patterns that
pass through it.  The empty list is the `nil` node. -/
abbrev routingNode := List routingEntry

/-- The pattern that ends at the node (`n.pattern`). -/
def routingNode.leaf (n : routingNode) : Option routingEntry :=
  n.find? (fun e => e.rest.isEmpty && !e.pat.multi)

/-- The child for the multi wildcard (`n.multiChild`), which is a leaf. -/
def routingNode.multiChild (n : routingNode) : Option routingEntry :=
  n.find? (fun e => e.rest.isEmpty && e.pat.multi)

/-- The child for the literal segment `seg` (`n.findChild(seg)`). -/
def routingNode.findChild (n : routingNode) (seg : List Char) : routingNode :=
  n.filterMap (fun e =>
    match e.rest with
    | [] => none
    | s :: rest => if s = seg then some { e with rest := rest } else none)

/-- Go `firstSegment`: the first segment of the path, unescaped, and the rest.
The first byte of the path is dropped as its slash; the path `/` gives the
segment `/`. -/
def firstSegment (path : List Char) : List Char × List Char :=
  if path = ['/'] then (['/'], [])
  else
    (pathUnescape (path.tail.takeWhile (fun c => c != '/')),
      path.tail.dropWhile (fun c => c != '/'))

/-- Go `routingNode.matchPath`: at the end of the path the pattern of the node;
otherwise the child for the first segment is tried, then the multi wildcard.
`fuel` bounds the depth, each level reading at least one byte. -/
def matchPath : Nat → routingNode → List Char → Option routingEntry
  | 0, _, _ => none
  | fuel + 1, n, path =>
    if n = [] then none
    else if path = [] then routingNode.leaf n
    else
      match matchPath fuel (routingNode.findChild n (firstSegment path).1)
          (firstSegment path).2 with
      | some e => some e
      | none => routingNode.multiChild n

/-- Go `http.ServeMux`: the registered `(pattern, handler)` pairs. -/
abbrev ServeMux := List (String × Handler)

/-- Go `ServeMux.Handle` / `http.HandleFunc` on the default mux (the patterns
of `main` are distinct and well formed, so the registration does not fail). -/
def ServeMux.Handle (mux : ServeMux) (pattern : String) (h : Handler) : ServeMux :=
  mux ++ [(pattern, h)]

/-- The routing tree of the mux, at its root. -/
def ServeMux.tree (mux : ServeMux) : routingNode :=
  mux.map (fun ph =>
    { rest := (parsePattern ph.1).segments, pat := parsePattern ph.1, h := ph.2 })

/-- Go `routingNode.match` at the root, for patterns without host and method. -/
def ServeMux.matchTree (mux : ServeMux) (path : String) : Option routingEntry :=
  matchPath (path.length + 1) (ServeMux.tree mux) path.data

/-- Go `exactMatch`: a pattern without multi wildcard matches exactly; one with
a multi wildcard does when the wildcard matched nothing. -/
def exactMatch (n : Option routingEntry) (path : String) : Bool :=
  match n with
  | none => false
  | some e =>
    if !e.pat.multi then true
    else if path.length > 0 ∧ path.data.getLast? ≠ some '/' then false
    else e.pat.segments.length + 1 == path.data.count '/'

/-- Go `ServeMux.matchOrRedirect`: the match for `path`, or, when it is not
exact, `u` is given and `path + "/"` matches exactly, the redirect to the path
with a slash added (path and query of the target). -/
def ServeMux.matchOrRedirect (mux : ServeMux) (path : String) (u : Option URL) :
    Option routingEntry × Option (String × String) :=
  let n := ServeMux.matchTree mux path
  match u with
  | none => (n, none)
  | some u =>
    if !exactMatch n path && path.data.getLast? != some '/' then
      if exactMatch (ServeMux.matchTree mux (path ++ "/")) (path ++ "/") then
        (none, some (cleanPath u.Path ++ "/", u.RawQuery))
      else (n, none)
    else (n, none)

/-- Go `ServeMux.findHandler`.  A `CONNECT` request is matched by its escaped
path as it is; any other request by its cleaned escaped path and, when
cleaning changed the path, answered by a redirect to the cleaned path. -/
def ServeMux.findHandler (mux : ServeMux) (r : Request) : Handler :=
  if r.Method = "CONNECT" then
    match (ServeMux.matchOrRedirect mux r.URL.EscapedPath (some r.URL)).2 with
    | some (path, query) => Handler.redirect path query
    | none =>
      match (ServeMux.matchOrRedirect mux r.URL.EscapedPath none).1 with
      | some e => e.h
      | none => Handler.notFound
  else
    match ServeMux.matchOrRedirect mux (cleanPath r.URL.EscapedPath) (some r.URL) with
    | (_, some (path, query)) => Handler.redirect path query
    | (n, none) =>
      if cleanPath r.URL.EscapedPath ≠ r.URL.EscapedPath then
        Handler.redirect (cleanPath r.URL.EscapedPath) r.URL.RawQuery
      else
        match n with
        | some e => e.h
        | none => Handler.notFound

/-- Go `ServeMux.ServeHTTP`, as the handler it hands the request to: the
request `*` (whose path is `*`) is answered with 400 by the mux itself. -/
def ServeMux.ServeHTTP (mux : ServeMux) (r : Request) : Handler :=
  if r.URL.EscapedPath = "*" then Handler.badRequest
  else ServeMux.findHandler mux r

/-- The registrations of `main`, in order, on the empty default mux. -/
def mainMux : ServeMux :=
  let mux : ServeMux := []
  let mux := ServeMux.Handle mux "/" (Handler.fileServer "./static")
  let mux := ServeMux.Handle mux "/api/tickers" Handler.tickersHandler
  ServeMux.Handle mux "/api/calculate" Handler.calculateHandler

/-- A handler that proxies to the backend. -/
def Handler.isProxy : Handler → Bool
  | Handler.tickersHandler => true
  | Handler.calculateHandler => true
  | _ => false

/-- The entry of the pattern `/` at the root of the tree of `main`. -/
def fsEntry : routingEntry :=
  { rest := [], pat := parsePattern "/", h := Handler.fileServer "./static" }

/-- The entry of `/api/tickers` at its leaf. -/
def tickersLeaf : routingEntry :=
  { rest := [], pat := parsePattern "/api/tickers", h := Handler.tickersHandler }

/-- The entry of `/api/calculate` at its leaf. -/
def calculateLeaf : routingEntry :=
  { rest := [], pat := parsePattern "/api/calculate", h := Handler.calculateHandler }

/-- The node below the segment `api`. -/
def apiNode : routingNode :=
  [{ tickersLeaf with rest := ["tickers".data] }, { calculateLeaf with rest := ["calculate".data] }]

/-! ## Concrete inputs used to exercise the statements -/

/-- A backend that answers every call with status 404, an HTML content type
and a body delivered in three reads. -/
def netNotFound : Transport := fun _ =>
  .ok { StatusCode := 404, Header := [("Content-Type", ["text/html"])],
        Body := ["<h1>", "", "nope</h1>"] }

/-- A backend that cannot be reached. -/
def netDown : Transport := fun url =>
  .error { Op := "Get", URL := url, Err := "dial tcp: connection refused" }

/-- A network on which no URL fails a check that is not modelled, and the
backend answers each request with 200 and the body `[]`. -/
def nwPlain : Network :=
  { malformed := fun _ => none,
    roundTrip := fun _ _ => .ok { StatusCode := 200, Header := [], Body := ["[]"] },
    resolve := fun _ loc => some loc }

/-- A network on which the backend answers the first request of a call with
`302` and `Location: http://python-server:8001/moved`, and the next with 200. -/
def nwMoved : Network :=
  { malformed := fun _ => none,
    roundTrip := fun sent _ =>
      if sent = [] then
        .ok { StatusCode := 302,
              Header := [("Location", ["http://python-server:8001/moved"])], Body := [] }
      else .ok { StatusCode := 200, Header := [], Body := ["[]"] },
    resolve := fun _ loc => some loc }

/-- A request for `path` with raw query `q`. -/
def getRequest (path q : String) : Request :=
  { Method := "GET", Host := "localhost:8080", URL := { EscapedPath := path, RawQuery := q },
    Header := [] }

/-! ## Facts about the response writer -/

theorem string_eq_empty_of_length (c : String) (h : ¬ c.length > 0) : c = "" := by
  have h0 : c.length = 0 := by omega
  have h1 : c.data = [] := List.length_eq_zero.mp h0
  exact String.ext h1

theorem string_join_cons (c : String) (cs : List String) :
    String.join (c :: cs) = c ++ String.join cs := by
  have key : ∀ (l : List String) (a : String), List.foldl (fun r s => r ++ s) a l
      = a ++ List.foldl (fun r s => r ++ s) "" l := by
    intro l
    induction l with
    | nil => intro a; simp
    | cons x xs ih =>
      intro a
      simp only [List.foldl_cons]
      rw [ih (a ++ x), ih ("" ++ x)]
      simp [String.append_assoc]
  simp only [String.join, List.foldl_cons]
  rw [key cs ("" ++ c)]
  simp

/-- Copying into a writer whose header is already out only appends. -/
theorem ioCopy_wrote (cs : List String) (w : ResponseWriter) (hw : w.wroteHeader = true) :
    ioCopy w cs = { w with body := w.body ++ String.join cs } := by
  induction cs generalizing w with
  | nil => simp [ioCopy, String.join]
  | cons c cs ih =>
    rw [string_join_cons]
    by_cases hc : c.length > 0
    · have hw1 : (w.Write c).wroteHeader = true := by simp [ResponseWriter.Write, hw]
      simp only [ioCopy, hc, if_true]
      rw [ih _ hw1]
      simp [ResponseWriter.Write, hw, String.append_assoc]
    · have hce := string_eq_empty_of_length c hc
      simp only [ioCopy, hc, if_false]
      rw [ih _ hw]
      simp [hce]

/-- Copying a body into a writer whose header is not out yet, then finishing
the request: status 200, the header map as it stood, the body appended. -/
theorem finishRequest_ioCopy (cs : List String) (w : ResponseWriter)
    (hw : w.wroteHeader = false) :
    finishRequest (ioCopy w cs) =
      { header := w.header, wroteHeader := true, status := StatusOK,
        sentHeader := w.header, body := w.body ++ String.join cs } := by
  induction cs generalizing w with
  | nil => simp [ioCopy, finishRequest, ResponseWriter.WriteHeader, hw, String.join]
  | cons c cs ih =>
    rw [string_join_cons]
    by_cases hc : c.length > 0
    · have hw1 : (w.Write c).wroteHeader = true := by
        simp [ResponseWriter.Write, ResponseWriter.WriteHeader, hw]
      simp only [ioCopy, hc, if_true]
      rw [ioCopy_wrote cs _ hw1]
      simp [finishRequest, ResponseWriter.Write, ResponseWriter.WriteHeader, hw,
        String.append_assoc]
    · have hce := string_eq_empty_of_length c hc
      simp only [ioCopy, hc, if_false]
      rw [ih _ hw]
      simp [hce]

/-- The response of `http.Error` on a fresh writer. -/
theorem finishRequest_Error_fresh (msg : String) (code : Nat) :
    finishRequest (Error ResponseWriter.fresh msg code) =
      { header := [("X-Content-Type-Options", ["nosniff"]),
                   ("Content-Type", ["text/plain; charset=utf-8"])],
        wroteHeader := true, status := code,
        sentHeader := [("X-Content-Type-Options", ["nosniff"]),
                       ("Content-Type", ["text/plain; charset=utf-8"])],
        body := msg ++ "\n" } := by
  simp [finishRequest, Error, ResponseWriter.fresh, ResponseWriter.HeaderDel,
    ResponseWriter.HeaderSet, ResponseWriter.WriteHeader, ResponseWriter.Write,
    Header.Del, Header.Set]

/-- The served response of a handler that relays a completed call. -/
theorem finishRequest_relay (cs : List String) :
    finishRequest (ioCopy (ResponseWriter.fresh.HeaderSet "Content-Type" "application/json") cs) =
      { header := [("Content-Type", ["application/json"])],
        wroteHeader := true, status := StatusOK,
        sentHeader := [("Content-Type", ["application/json"])],
        body := String.join cs } := by
  rw [finishRequest_ioCopy _ _ (by simp [ResponseWriter.HeaderSet, ResponseWriter.fresh])]
  simp [ResponseWriter.HeaderSet, ResponseWriter.fresh, Header.Set, Header.Del]

/-! ## Facts about the handlers -/

/-- A request without the parameter: `Get` yields the empty string. -/
theorem Values.Get_of_absent (v : Values) (key : String)
    (h : ∀ x, (key, x) ∉ v) : Values.Get v key = "" := by
  have hnil : Values.index v key = [] := by
    unfold Values.index
    rw [List.map_eq_nil_iff, List.filter_eq_nil_iff]
    rintro ⟨k, x⟩ hmem hk
    have hk' : k = key := by simpa using hk
    subst hk'
    exact h x hmem
  simp [Values.Get, hnil]

/-- The served response of `calculateHandler` when the parameter is missing. -/
theorem serve_calculate_missing (net : Transport) (s : World) (r : Request)
    (h : Values.Get r.URL.Query "benchmark_ticker" = "") :
    serve (calculateHandler net) s r =
      (s, finishRequest (Error ResponseWriter.fresh
        "Missing 'benchmark_ticker' query parameter" StatusBadRequest)) := by
  simp [serve, calculateHandler, h]

/-- The served response of `calculateHandler` when the parameter is present. -/
theorem serve_calculate_present (net : Transport) (s : World) (r : Request)
    (h : Values.Get r.URL.Query "benchmark_ticker" ≠ "") :
    serve (calculateHandler net) s r =
      match net (s.pythonCalculatorURL ++ "/calculate?benchmark_ticker=" ++
          Values.Get r.URL.Query "benchmark_ticker") with
      | .error err =>
        ({ s with
            calls := s.calls ++ [s.pythonCalculatorURL ++ "/calculate?benchmark_ticker=" ++
              Values.Get r.URL.Query "benchmark_ticker"],
            logged := s.logged ++
              ["Error connecting to Python calculate endpoint: " ++ err.Error] },
          finishRequest (Error ResponseWriter.fresh
            "Failed to connect to calculation service" StatusInternalServerError))
      | .ok resp =>
        ({ s with
            calls := s.calls ++ [s.pythonCalculatorURL ++ "/calculate?benchmark_ticker=" ++
              Values.Get r.URL.Query "benchmark_ticker"] },
          finishRequest (ioCopy
            (ResponseWriter.fresh.HeaderSet "Content-Type" "application/json") resp.Body)) := by
  simp only [serve, calculateHandler, h, if_false, httpGet, logPrintf]
  cases net (s.pythonCalculatorURL ++ "/calculate?benchmark_ticker=" ++
      Values.Get r.URL.Query "benchmark_ticker") <;> rfl

/-- The served response of `tickersHandler`. -/
theorem serve_tickers (net : Transport) (s : World) (r : Request) :
    serve (tickersHandler net) s r =
      match net (s.pythonCalculatorURL ++ "/tickers") with
      | .error err =>
        ({ s with
            calls := s.calls ++ [s.pythonCalculatorURL ++ "/tickers"],
            logged := s.logged ++
              ["Error connecting to Python tickers endpoint: " ++ err.Error] },
          finishRequest (Error ResponseWriter.fresh
            "Failed to connect to calculation service" StatusInternalServerError))
      | .ok resp =>
        ({ s with calls := s.calls ++ [s.pythonCalculatorURL ++ "/tickers"] },
          finishRequest (ioCopy
            (ResponseWriter.fresh.HeaderSet "Content-Type" "application/json") resp.Body)) := by
  simp only [serve, tickersHandler, httpGet, logPrintf]
  cases net (s.pythonCalculatorURL ++ "/tickers") <;> rfl

/-- The `http.Get` calls of a served `tickersHandler`. -/
theorem serve_tickers_calls (net : Transport) (s : World) (r : Request) :
    (serve (tickersHandler net) s r).1.calls
      = s.calls ++ [s.pythonCalculatorURL ++ "/tickers"] := by
  rw [serve_tickers]
  cases net (s.pythonCalculatorURL ++ "/tickers") <;> rfl

/-- The `http.Get` calls of a served `calculateHandler` when the parameter is
present. -/
theorem serve_calculate_calls (net : Transport) (s : World) (r : Request)
    (h : Values.Get r.URL.Query "benchmark_ticker" ≠ "") :
    (serve (calculateHandler net) s r).1.calls
      = s.calls ++ [s.pythonCalculatorURL ++ "/calculate?benchmark_ticker=" ++
          Values.Get r.URL.Query "benchmark_ticker"] := by
  rw [serve_calculate_present net s r h]
  cases net (s.pythonCalculatorURL ++ "/calculate?benchmark_ticker=" ++
      Values.Get r.URL.Query "benchmark_ticker") <;> rfl

/-- The text of a `url.Error` holds a double quote, the fixed 500 message
holds none: the message cannot contain the error text. -/
theorem error_text_not_in_message (e : URLError) :
    ¬ (e.Error.data <:+: "Failed to connect to calculation service\n".data) := by
  intro hin
  have hq : '"' ∈ e.Error.data := by
    simp [URLError.Error, String.data_append]
  have hmem := hin.subset hq
  revert hmem
  decide

/-- Both handlers leave `pythonCalculatorURL` and the environment alone. -/
theorem tickersHandler_frame (net : Transport) (s : World) (w : ResponseWriter) (r : Request) :
    (tickersHandler net s w r).1.pythonCalculatorURL = s.pythonCalculatorURL ∧
    (tickersHandler net s w r).1.environ = s.environ := by
  simp only [tickersHandler, httpGet, logPrintf]
  cases net (s.pythonCalculatorURL ++ "/tickers") <;> exact ⟨rfl, rfl⟩

theorem calculateHandler_frame (net : Transport) (s : World) (w : ResponseWriter)
    (r : Request) :
    (calculateHandler net s w r).1.pythonCalculatorURL = s.pythonCalculatorURL ∧
    (calculateHandler net s w r).1.environ = s.environ := by
  simp only [calculateHandler, httpGet, logPrintf]
  split
  · exact ⟨rfl, rfl⟩
  · cases net (s.pythonCalculatorURL ++ "/calculate?benchmark_ticker=" ++
      Values.Get r.URL.Query "benchmark_ticker") <;> exact ⟨rfl, rfl⟩

/-- Neither handler reads the environment: run in another environment, it
makes the same calls, logs the same lines and writes the same response. -/
theorem tickersHandler_environ (net : Transport) (s : World) (w : ResponseWriter)
    (r : Request) (env : List (String × String)) :
    tickersHandler net { s with environ := env } w r =
      ({ (tickersHandler net s w r).1 with environ := env }, (tickersHandler net s w r).2) := by
  simp only [tickersHandler, httpGet, logPrintf]
  cases net (s.pythonCalculatorURL ++ "/tickers") <;> rfl

theorem calculateHandler_environ (net : Transport) (s : World) (w : ResponseWriter)
    (r : Request) (env : List (String × String)) :
    calculateHandler net { s with environ := env } w r =
      ({ (calculateHandler net s w r).1 with environ := env },
        (calculateHandler net s w r).2) := by
  simp only [calculateHandler, httpGet, logPrintf]
  split
  · rfl
  · cases net (s.pythonCalculatorURL ++ "/calculate?benchmark_ticker=" ++
      Values.Get r.URL.Query "benchmark_ticker") <;> rfl

/-! ## Facts about routing -/

/-- `backtrack` returns a suffix of the buffer, at least `dotdot` long. -/
theorem backtrack_suffix (out : List Char) (dotdot : Nat) (hlen : out.length > dotdot) :
    backtrack out dotdot <:+ out ∧ dotdot ≤ (backtrack out dotdot).length := by
  induction out with
  | nil => simp at hlen
  | cons c rest ih =>
    simp only [List.length_cons] at hlen
    unfold backtrack
    split
    · rename_i h
      have := ih h.1
      exact ⟨this.1.trans (List.suffix_cons c rest), this.2⟩
    · exact ⟨List.suffix_cons c rest, by omega⟩

/-- A non-empty suffix has the last element of the whole list. -/
theorem getLast?_of_suffix {l1 l2 : List Char} (h : l1 <:+ l2) (hne : l1 ≠ []) :
    l2.getLast? = l1.getLast? := by
  obtain ⟨t, rfl⟩ := h
  exact List.getLast?_append_of_ne_nil t hne

/-- On a rooted path the buffer of `cleanLoop` keeps its leading slash. -/
theorem cleanLoop_rooted_getLast (fuel : Nat) (rest out : List Char)
    (hout : out.getLast? = some '/') :
    (cleanLoop true fuel rest out 1).getLast? = some '/' := by
  induction fuel generalizing rest out with
  | zero => simpa [cleanLoop] using hout
  | succ n ih =>
    cases rest with
    | nil => simpa [cleanLoop] using hout
    | cons c rest =>
      have hne : out ≠ [] := by
        intro h; subst h; simp at hout
      unfold cleanLoop
      split
      · exact ih _ _ hout
      · split
        · exact ih _ _ hout
        · split
          · split
            · rename_i hlen
              have hb := backtrack_suffix out 1 hlen
              have hbne : backtrack out 1 ≠ [] := by
                intro h; rw [h] at hb; simp at hb
              apply ih
              rw [← getLast?_of_suffix hb.1 hbne]
              exact hout
            · simp only [Bool.not_true, Bool.false_eq_true, if_false]
              exact ih _ _ hout
          · apply ih
            simp only [Bool.true_and, Bool.not_true, Bool.false_and, Bool.or_false]
            split
            · rw [List.getLast?_append_of_ne_nil _ (by simp)]
              rw [List.getLast?_cons, hout]
              rfl
            · rw [List.getLast?_append_of_ne_nil _ hne]
              exact hout

/-- The clean form of a rooted path is rooted. -/
theorem pathClean_rooted_head (p : List Char) (h : p.head? = some '/') :
    (pathClean p).head? = some '/' := by
  have hne : p ≠ [] := by
    intro h0; subst h0; simp at h
  have hl := cleanLoop_rooted_getLast (p.length + 1) p.tail ['/'] rfl
  have hne2 : cleanLoop true (p.length + 1) p.tail ['/'] 1 ≠ [] := by
    intro h0; rw [h0] at hl; simp at hl
  simp only [pathClean, hne, if_false, h, decide_True, if_true, hne2]
  rw [List.head?_reverse]
  exact hl

/-- The cleaned path begins with a slash. -/
theorem cleanPath_head (p : String) : (cleanPath p).data.head? = some '/' := by
  unfold cleanPath
  split
  · rfl
  · have hp : (if p.data.head? ≠ some '/' then "/" ++ p else p).data.head? = some '/' := by
      split
      · simp [String.data_append]
      · rename_i h; simpa using h
    generalize (if p.data.head? ≠ some '/' then "/" ++ p else p) = q at hp
    have hnp := pathClean_rooted_head q.data hp
    simp only
    split
    · split
      · exact hp
      · simp only [String.data_append]
        rw [List.head?_append, hnp]
        rfl
    · exact hnp

/-! ## Facts about query parsing -/

/-- Unescaping never lengthens. -/
theorem QueryUnescape_length : ∀ (n : Nat) (s t : List Char), s.length ≤ n →
    QueryUnescape s = some t → t.length ≤ s.length := by
  intro n
  induction n with
  | zero =>
    intro s t hs h
    have : s = [] := List.length_eq_zero.mp (by omega)
    subst this
    simp [QueryUnescape] at h
    subst h; simp
  | succ n ih =>
    intro s t hs h
    unfold QueryUnescape at h
    split at h
    · simp at h; subst h; simp
    · rename_i a b rest
      split at h
      · simp only [Option.map_eq_some'] at h
        obtain ⟨t', ht', rfl⟩ := h
        have := ih rest t' (by simp at hs; omega) ht'
        simp; omega
      · simp at h
    · simp at h
    · rename_i rest
      simp only [Option.map_eq_some'] at h
      obtain ⟨t', ht', rfl⟩ := h
      have := ih rest t' (by simp at hs; omega) ht'
      simp; omega
    · rename_i c rest _ _ _
      simp only [Option.map_eq_some'] at h
      obtain ⟨t', ht', rfl⟩ := h
      have := ih rest t' (by simp at hs; omega) ht'
      simp; omega


/-- A value with a `%` or a `+` does not unescape to itself. -/
theorem QueryUnescape_ne : ∀ (n : Nat) (s t : List Char), s.length ≤ n →
    QueryUnescape s = some t → (∃ c ∈ s, c = '%' ∨ c = '+') → t ≠ s := by
  intro n
  induction n with
  | zero =>
    intro s t hs _ hex
    have : s = [] := List.length_eq_zero.mp (by omega)
    subst this
    simp at hex
  | succ n ih =>
    intro s t hs h hex
    unfold QueryUnescape at h
    split at h
    · simp at hex
    · rename_i a b rest
      split at h
      · simp only [Option.map_eq_some'] at h
        obtain ⟨t', ht', rfl⟩ := h
        have hl := QueryUnescape_length _ rest t' (le_refl _) ht'
        intro heq
        have := congrArg List.length heq
        simp at this
        omega
      · simp at h
    · simp at h
    · rename_i rest
      simp only [Option.map_eq_some'] at h
      obtain ⟨t', ht', rfl⟩ := h
      intro heq
      have := (List.cons.inj heq).1
      revert this
      decide
    · rename_i c rest hc1 hc2 hc3
      simp only [Option.map_eq_some'] at h
      obtain ⟨t', ht', rfl⟩ := h
      have hcp : c ≠ '%' := fun hcp => hc2 hcp
      have hcq : c ≠ '+' := fun hcq => hc3 hcq
      have hex' : ∃ c ∈ rest, c = '%' ∨ c = '+' := by
        obtain ⟨d, hd, hd'⟩ := hex
        rcases List.mem_cons.mp hd with hd1 | hd1
        · subst hd1
          rcases hd' with h1 | h1
          · exact absurd h1 hcp
          · exact absurd h1 hcq
        · exact ⟨d, hd1, hd'⟩
      have := ih rest t' (by simp at hs; omega) ht' hex'
      intro heq
      exact this (List.cons.inj heq).2

/-- A value without `%` and `+` unescapes to itself. -/
theorem QueryUnescape_id (s : List Char) (h : ∀ c ∈ s, c ≠ '%' ∧ c ≠ '+') :
    QueryUnescape s = some s := by
  induction s with
  | nil => rfl
  | cons c rest ih =>
    have hc := h c (List.mem_cons_self _ _)
    have ih' := ih (fun d hd => h d (List.mem_cons_of_mem _ hd))
    unfold QueryUnescape
    split
    · rename_i heq; cases heq
    · rename_i heq
      exact absurd (List.cons.inj heq).1 hc.1
    · rename_i heq
      exact absurd (List.cons.inj heq).1 hc.1
    · rename_i heq
      exact absurd (List.cons.inj heq).1 hc.2
    · rename_i c' rest' _ _ _ heq
      obtain ⟨h1, h2⟩ := List.cons.inj heq
      subst h1 h2
      rw [ih']
      rfl


/-- The last element of a non-empty list is one of its elements. -/
theorem mem_of_getLast? {l : List Char} {c : Char} (h : l.getLast? = some c) : c ∈ l := by
  obtain ⟨ys, rfl⟩ := List.getLast?_eq_some_iff.mp h
  simp

/-- The raw query of the URL that `calculateHandler` builds, for a base URL
without `?` and `#`: the parameter name, `=`, and the value up to its first
`#`. -/
theorem splitRawQuery_outbound (B X : String) (hB : ∀ c ∈ B.data, c ≠ '?' ∧ c ≠ '#') :
    splitRawQuery (B ++ "/calculate?benchmark_ticker=" ++ X)
      = String.mk ("benchmark_ticker=".data ++ X.data.takeWhile (fun c => c != '#')) := by
  have hdata : (B ++ "/calculate?benchmark_ticker=" ++ X).data
      = ((B.data ++ "/calculate".data) ++ '?' :: "benchmark_ticker=".data) ++ X.data := by
    simp [String.data_append]
  have hP : ∀ c ∈ B.data ++ "/calculate".data, c ≠ '?' ∧ c ≠ '#' := by
    intro c hc
    rcases List.mem_append.mp hc with h | h
    · exact hB c h
    · have hmid : ∀ c ∈ "/calculate".data, c ≠ '?' ∧ c ≠ '#' := by decide
      exact hmid c h
  have hkt : ∀ c ∈ "benchmark_ticker=".data, c ≠ '?' ∧ c ≠ '#' := by decide
  generalize hPdef : B.data ++ "/calculate".data = P at hdata hP
  generalize hktdef : "benchmark_ticker=".data = kt at hdata hkt
  have hktne : kt ≠ [] := by rw [← hktdef]; decide
  have htake : ((P ++ '?' :: kt) ++ X.data).takeWhile (fun c => c != '#')
      = P ++ '?' :: (kt ++ X.data.takeWhile (fun c => c != '#')) := by
    rw [List.takeWhile_append_of_pos]
    · simp
    · intro c hc
      rcases List.mem_append.mp hc with h | h
      · simpa using (hP c h).2
      · rcases List.mem_cons.mp h with h | h
        · subst h; decide
        · simpa using (hkt c h).2
  unfold splitRawQuery cut
  simp only [hdata, htake]
  generalize X.data.takeWhile (fun c => c != '#') = X'
  have hcountP : P.count '?' = 0 := by
    rw [List.count_eq_zero]
    intro h
    exact (hP _ h).1 rfl
  have hforce : ¬ ((P ++ '?' :: (kt ++ X')).getLast? = some '?' ∧
      (P ++ '?' :: (kt ++ X')).count '?' = 1) := by
    rintro ⟨hlast, hcount⟩
    have hne : kt ++ X' ≠ [] := by simp [hktne]
    have h1 : (P ++ '?' :: (kt ++ X')).getLast? = (kt ++ X').getLast? := by
      rw [List.getLast?_append_of_ne_nil _ (by simp), List.getLast?_cons]
      cases hl : (kt ++ X').getLast? with
      | none => exact absurd (List.getLast?_eq_none_iff.mp hl) hne
      | some x => rfl
    rw [h1] at hlast
    have hmem := mem_of_getLast? hlast
    rw [List.count_append, List.count_cons_self, hcountP] at hcount
    have : (kt ++ X').count '?' = 0 := by omega
    exact (List.count_eq_zero.mp this) hmem
  rw [if_neg hforce]
  have hdrop : (P ++ '?' :: (kt ++ X')).dropWhile (fun c => c != '?') = '?' :: (kt ++ X') := by
    rw [List.dropWhile_append_of_pos]
    · simp
    · intro c hc
      simpa using (hP c hc).1
  simp only [hdrop, List.tail_cons]


/-- The loop stops on the empty query. -/
theorem parseQueryLoop_nil (n : Nat) (m : Values) : parseQueryLoop n m [] = m := by
  cases n <;> simp [parseQueryLoop]

/-- One turn of the loop of `parseQuery`. -/
theorem parseQueryLoop_step (n : Nat) (m : Values) (q : List Char) (hq : q ≠ []) :
    parseQueryLoop (n + 1) m q
      = parseQueryLoop n (parseQueryPiece m (q.takeWhile (fun c => c != '&')))
          (q.dropWhile (fun c => c != '&')).tail := by
  simp [parseQueryLoop, cut, hq]

/-- A prefix taken by `takeWhile` is no longer than the list. -/
theorem takeWhile_length_le (p : Char → Bool) (l : List Char) :
    (l.takeWhile p).length ≤ l.length := by
  induction l with
  | nil => simp
  | cons a t ih =>
    rw [List.takeWhile_cons]
    split
    · simp only [List.length_cons]; omega
    · simp

/-- The prefix is strictly shorter when some element fails the test. -/
theorem takeWhile_length_lt (p : Char → Bool) (l : List Char) (h : ∃ c ∈ l, p c = false) :
    (l.takeWhile p).length < l.length := by
  induction l with
  | nil => simp at h
  | cons a t ih =>
    rw [List.takeWhile_cons]
    split
    · rename_i hpa
      obtain ⟨c, hc, hpc⟩ := h
      rcases List.mem_cons.mp hc with h1 | h1
      · subst h1; rw [hpa] at hpc; cases hpc
      · have := ih ⟨c, h1, hpc⟩
        simp; omega
    · simp

/-- What `dropWhile` leaves is no longer than the list. -/
theorem dropWhile_length_le (p : Char → Bool) (l : List Char) :
    (l.dropWhile p).length ≤ l.length := by
  induction l with
  | nil => simp
  | cons a t ih =>
    rw [List.dropWhile_cons]
    split
    · simp only [List.length_cons]; omega
    · simp

/-- A value added by one turn of the loop is no longer than the piece. -/
theorem parseQueryPiece_bound (m : Values) (piece : List Char) (kv : String × String)
    (h : kv ∈ parseQueryPiece m piece) : kv ∈ m ∨ kv.2.length ≤ piece.length := by
  unfold parseQueryPiece at h
  split at h
  · exact Or.inl h
  · split at h
    · exact Or.inl h
    · simp only [cut] at h
      split at h
      · exact Or.inl h
      · split at h
        · exact Or.inl h
        · rename_i k1 _ v1 hv
          rcases List.mem_append.mp h with h1 | h1
          · exact Or.inl h1
          · right
            simp only [List.mem_singleton] at h1
            subst h1
            have h2 := QueryUnescape_length _ _ v1 (le_refl _) hv
            have h3 := dropWhile_length_le (fun c => c != '=') piece
            simp only [List.length_tail] at h2
            show v1.length ≤ piece.length
            omega

/-- Every value the loop adds is no longer than the query it parses. -/
theorem parseQueryLoop_bound (n : Nat) (m : Values) (q : List Char) (kv : String × String)
    (h : kv ∈ parseQueryLoop n m q) : kv ∈ m ∨ kv.2.length ≤ q.length := by
  induction n generalizing m q with
  | zero => exact Or.inl (by simpa [parseQueryLoop] using h)
  | succ n ih =>
    by_cases hq : q = []
    · subst hq
      rw [parseQueryLoop_nil] at h
      exact Or.inl h
    · rw [parseQueryLoop_step n m q hq] at h
      have htl := takeWhile_length_le (fun c => c != '&') q
      have hdl := dropWhile_length_le (fun c => c != '&') q
      rcases ih _ _ h with h1 | h1
      · rcases parseQueryPiece_bound _ _ _ h1 with h2 | h2
        · exact Or.inl h2
        · right; omega
      · right
        simp only [List.length_tail] at h1
        omega

/-- A non-empty result of `Get` is one of the values. -/
theorem Values.Get_mem (v : Values) (key x : String) (h : Values.Get v key = x)
    (hx : x ≠ "") : (key, x) ∈ v := by
  unfold Values.Get at h
  split at h
  · exact absurd h.symm hx
  · rename_i y ys hidx
    subst h
    have hmem : y ∈ Values.index v key := by rw [hidx]; simp
    unfold Values.index at hmem
    rw [List.mem_map] at hmem
    obtain ⟨⟨k, y'⟩, hkv, rfl⟩ := hmem
    rw [List.mem_filter] at hkv
    have hk : k = key := by simpa using hkv.2
    subst hk
    exact hkv.1


/-- The piece `benchmark_ticker=` followed by `X1`: dropped when `X1` holds a
`;` or fails to unescape, otherwise the single parameter with the unescaped
value. -/
theorem parseQueryPiece_ticker (X1 : List Char) :
    parseQueryPiece [] ("benchmark_ticker=".data ++ X1) =
      if X1.any (fun c => c == ';') then []
      else match QueryUnescape X1 with
        | none => []
        | some v => [("benchmark_ticker", String.mk v)] := by
  have hk : QueryUnescape "benchmark_ticker".data = some "benchmark_ticker".data := by decide
  have hany : ("benchmark_ticker=".data ++ X1).any (fun c => c == ';')
      = X1.any (fun c => c == ';') := by
    rw [List.any_append]
    have : "benchmark_ticker=".data.any (fun c => c == ';') = false := by decide
    rw [this, Bool.false_or]
  have htake : ("benchmark_ticker=".data ++ X1).takeWhile (fun c => c != '=')
      = "benchmark_ticker".data := by
    simp [List.takeWhile]
  have hdrop : (("benchmark_ticker=".data ++ X1).dropWhile (fun c => c != '=')).tail = X1 := by
    simp [List.dropWhile]
  unfold parseQueryPiece
  rw [hany]
  split
  · rfl
  · have hne : "benchmark_ticker=".data ++ X1 ≠ [] := by simp
    rw [if_neg hne]
    simp only [cut, htake, hdrop, hk]
    cases QueryUnescape X1 <;> rfl


/-- The query the backend parses, for a base URL without `?` and `#`. -/
theorem sentQuery_eq (B X : String) (hB : ∀ c ∈ B.data, c ≠ '?' ∧ c ≠ '#') :
    ParseQuery (splitRawQuery (B ++ "/calculate?benchmark_ticker=" ++ X)) =
      if ("benchmark_ticker=".data ++ X.data.takeWhile (fun c => c != '#')).count '&' + 1
          > 10000 then []
      else
      parseQueryLoop ("benchmark_ticker=".data ++ X.data.takeWhile (fun c => c != '#')).length
        (parseQueryPiece [] ("benchmark_ticker=".data ++
          (X.data.takeWhile (fun c => c != '#')).takeWhile (fun c => c != '&')))
        (((X.data.takeWhile (fun c => c != '#')).dropWhile (fun c => c != '&')).tail) := by
  unfold ParseQuery
  rw [splitRawQuery_outbound B X hB]
  generalize X.data.takeWhile (fun c => c != '#') = X'
  have hne : "benchmark_ticker=".data ++ X' ≠ [] := by simp
  show (if ("benchmark_ticker=".data ++ X').count '&' + 1 > 10000 then []
    else parseQueryLoop (("benchmark_ticker=".data ++ X').length + 1) []
      ("benchmark_ticker=".data ++ X')) = _
  rw [parseQueryLoop_step _ _ _ hne]
  have hkt : ∀ c ∈ "benchmark_ticker=".data, (c != '&') = true := by decide
  rw [List.takeWhile_append_of_pos hkt, List.dropWhile_append_of_pos hkt]

/-- A value free of `&`, `;`, `#`, `+` and `%` comes back as it was sent, as
the only parameter. -/
theorem sentQuery_clean (B X : String) (hB : ∀ c ∈ B.data, c ≠ '?' ∧ c ≠ '#')
    (hX : ∀ c ∈ X.data, queryReserved c = false) :
    ParseQuery (splitRawQuery (B ++ "/calculate?benchmark_ticker=" ++ X))
      = [("benchmark_ticker", X)] := by
  have hX' : ∀ c ∈ X.data, c ≠ '&' ∧ c ≠ ';' ∧ c ≠ '#' ∧ c ≠ '+' ∧ c ≠ '%' := by
    intro c hc
    have := hX c hc
    simp only [queryReserved, Bool.or_eq_false_iff, beq_eq_false_iff_ne] at this
    obtain ⟨⟨⟨⟨a1, a2⟩, a3⟩, a4⟩, a5⟩ := this
    exact ⟨a1, a2, a3, a4, a5⟩
  have h1 : X.data.takeWhile (fun c => c != '#') = X.data := by
    rw [List.takeWhile_eq_self_iff]
    intro c hc
    simpa using (hX' c hc).2.2.1
  have h2 : X.data.takeWhile (fun c => c != '&') = X.data := by
    rw [List.takeWhile_eq_self_iff]
    intro c hc
    simpa using (hX' c hc).1
  have h3 : X.data.dropWhile (fun c => c != '&') = [] := by
    rw [List.dropWhile_eq_nil_iff]
    intro c hc
    simpa using (hX' c hc).1
  have h4 : X.data.any (fun c => c == ';') = false := by
    rw [List.any_eq_false]
    intro c hc
    simpa using (hX' c hc).2.1
  have h5 : QueryUnescape X.data = some X.data :=
    QueryUnescape_id _ (fun c hc => ⟨(hX' c hc).2.2.2.2, (hX' c hc).2.2.2.1⟩)
  have h6 : ¬ (("benchmark_ticker=".data ++ X.data).count '&' + 1 > 10000) := by
    have hk : "benchmark_ticker=".data.count '&' = 0 := by decide
    have hx : X.data.count '&' = 0 := by
      rw [List.count_eq_zero]
      intro hmem
      exact (hX' _ hmem).1 rfl
    rw [List.count_append, hk, hx]
    omega
  rw [sentQuery_eq B X hB, h1, if_neg h6, h2, h3, List.tail_nil, parseQueryLoop_nil,
    parseQueryPiece_ticker, h4, h5]
  rfl

/-- A value with one of `&`, `;`, `#`, `+`, `%` does not come back: the
backend's first `benchmark_ticker` differs from it. -/
theorem sentQuery_reserved (B X : String) (hB : ∀ c ∈ B.data, c ≠ '?' ∧ c ≠ '#')
    (hne : X ≠ "") (hX : ∃ c ∈ X.data, queryReserved c = true) :
    Values.Get (ParseQuery (splitRawQuery (B ++ "/calculate?benchmark_ticker=" ++ X)))
      "benchmark_ticker" ≠ X := by
  intro hget
  have hmem := Values.Get_mem _ _ _ hget hne
  have hlen : 0 < X.data.length := by
    cases hd : X.data with
    | nil => exact absurd (String.ext hd) hne
    | cons a t => simp
  rw [sentQuery_eq B X hB] at hmem
  split at hmem
  · simp at hmem
  by_cases hcut : ∃ c ∈ X.data, c = '#' ∨ c = '&'
  · -- the value is cut short: every value received is shorter than `X`
    have hX1 : ((X.data.takeWhile (fun c => c != '#')).takeWhile (fun c => c != '&')).length
        < X.data.length := by
      by_cases hhash : ∃ c ∈ X.data, c = '#'
      · obtain ⟨c, hc, rfl⟩ := hhash
        have := takeWhile_length_lt (fun c => c != '#') X.data ⟨'#', hc, by decide⟩
        have := takeWhile_length_le (fun c => c != '&') (X.data.takeWhile (fun c => c != '#'))
        omega
      · have h1 : X.data.takeWhile (fun c => c != '#') = X.data := by
          rw [List.takeWhile_eq_self_iff]
          intro c hc
          have : c ≠ '#' := fun h => hhash ⟨c, hc, h⟩
          simpa using this
        rw [h1]
        obtain ⟨c, hc, hc'⟩ := hcut
        rcases hc' with rfl | rfl
        · exact absurd ⟨'#', hc, rfl⟩ hhash
        · exact takeWhile_length_lt _ _ ⟨'&', hc, by decide⟩
    have hrest : (((X.data.takeWhile (fun c => c != '#')).dropWhile
        (fun c => c != '&')).tail).length < X.data.length := by
      have := dropWhile_length_le (fun c => c != '&') (X.data.takeWhile (fun c => c != '#'))
      have := takeWhile_length_le (fun c => c != '#') X.data
      simp only [List.length_tail]
      omega
    have hXlen : X.length = X.data.length := rfl
    rcases parseQueryLoop_bound _ _ _ _ hmem with h1 | h1
    · rw [parseQueryPiece_ticker] at h1
      split at h1
      · simp at h1
      · split at h1
        · simp at h1
        · rename_i v hv
          simp only [List.mem_singleton, Prod.mk.injEq, true_and] at h1
          have hvl := QueryUnescape_length _ _ v (le_refl _) hv
          have : X.data.length = v.length := by rw [h1]
          omega
    · simp only at h1
      omega
  · -- one piece: dropped, or unescaped to something else
    have hno : ∀ c ∈ X.data, c ≠ '#' ∧ c ≠ '&' := by
      intro c hc
      exact ⟨fun h => hcut ⟨c, hc, Or.inl h⟩, fun h => hcut ⟨c, hc, Or.inr h⟩⟩
    have h1 : X.data.takeWhile (fun c => c != '#') = X.data := by
      rw [List.takeWhile_eq_self_iff]
      intro c hc
      simpa using (hno c hc).1
    have h2 : X.data.takeWhile (fun c => c != '&') = X.data := by
      rw [List.takeWhile_eq_self_iff]
      intro c hc
      simpa using (hno c hc).2
    have h3 : X.data.dropWhile (fun c => c != '&') = [] := by
      rw [List.dropWhile_eq_nil_iff]
      intro c hc
      simpa using (hno c hc).2
    rw [h1, h2, h3, List.tail_nil, parseQueryLoop_nil, parseQueryPiece_ticker] at hmem
    split at hmem
    · simp at hmem
    · rename_i hsemi
      split at hmem
      · simp at hmem
      · rename_i v hv
        simp only [List.mem_singleton, Prod.mk.injEq, true_and] at hmem
        have hpm : ∃ c ∈ X.data, c = '%' ∨ c = '+' := by
          obtain ⟨c, hc, hres⟩ := hX
          have hn := hno c hc
          have hs : c ≠ ';' := by
            intro h; subst h
            apply hsemi
            rw [List.any_eq_true]
            exact ⟨';', hc, by decide⟩
          refine ⟨c, hc, ?_⟩
          simp only [queryReserved, Bool.or_eq_true, beq_iff_eq] at hres
          rcases hres with (((h | h) | h) | h) | h
          · exact absurd h hn.2
          · exact absurd h hs
          · exact absurd h hn.1
          · exact Or.inr h
          · exact Or.inl h
        have := QueryUnescape_ne _ _ v (le_refl _) hv hpm
        apply this
        rw [hmem]

/-! ## Facts about the routing tree of `main` -/

/-- The `nil` node matches nothing. -/
theorem matchPath_nil_node (fuel : Nat) (path : List Char) : matchPath fuel [] path = none := by
  cases fuel <;> simp [matchPath]

/-- At the end of the path the match is the pattern of the node. -/
theorem matchPath_end (fuel : Nat) (n : routingNode) (hn : n ≠ []) :
    matchPath (fuel + 1) n [] = routingNode.leaf n := by
  simp [matchPath, hn]

/-- One level of `matchPath`. -/
theorem matchPath_succ (fuel : Nat) (n : routingNode) (path : List Char) (hn : n ≠ [])
    (hp : path ≠ []) :
    matchPath (fuel + 1) n path =
      match matchPath fuel (routingNode.findChild n (firstSegment path).1)
          (firstSegment path).2 with
      | some e => some e
      | none => routingNode.multiChild n := by
  cases h : matchPath fuel (routingNode.findChild n (firstSegment path).1)
      (firstSegment path).2 <;> simp [matchPath, hn, hp, h]

/-- The root of the tree of `main` has one literal child, `api`. -/
theorem tree_findChild (seg : List Char) :
    routingNode.findChild (ServeMux.tree mainMux) seg
      = if seg = "api".data then apiNode else [] := by
  have hT : ServeMux.tree mainMux
      = [fsEntry, { tickersLeaf with rest := ["api".data, "tickers".data] },
          { calculateLeaf with rest := ["api".data, "calculate".data] }] := by decide
  rw [hT]
  by_cases h : seg = "api".data
  · subst h; decide
  · have h' : ¬ "api".data = seg := fun e => h e.symm
    simp [routingNode.findChild, List.filterMap, fsEntry, h, h']

/-- The node `api` has the children `tickers` and `calculate`. -/
theorem apiNode_findChild (seg : List Char) :
    routingNode.findChild apiNode seg
      = if seg = "tickers".data then [tickersLeaf]
        else if seg = "calculate".data then [calculateLeaf] else [] := by
  by_cases h : seg = "tickers".data
  · subst h; decide
  · by_cases h2 : seg = "calculate".data
    · subst h2; decide
    · have h' : ¬ "tickers".data = seg := fun e => h e.symm
      have h2' : ¬ "calculate".data = seg := fun e => h2 e.symm
      simp [routingNode.findChild, List.filterMap, apiNode, h, h2, h', h2']

/-- A pattern that ends at a node gives the node no child. -/
theorem leaf_findChild (e : routingEntry) (he : e.rest = []) (seg : List Char) :
    routingNode.findChild [e] seg = [] := by
  simp [routingNode.findChild, List.filterMap, he]


/-- Cutting off the first segment shortens the path. -/
theorem firstSegment_snd_length (path : List Char) (hp : path ≠ []) :
    (firstSegment path).2.length < path.length := by
  unfold firstSegment
  split
  · rename_i h; subst h; decide
  · cases path with
    | nil => exact absurd rfl hp
    | cons c t =>
      have := dropWhile_length_le (fun c => c != '/') t
      simp only [List.tail_cons, List.length_cons]
      omega

/-- The tree of `main` is not the `nil` node. -/
theorem tree_ne_nil : ServeMux.tree mainMux ≠ [] := by decide

/-- The node `api` is not the `nil` node. -/
theorem apiNode_ne_nil : apiNode ≠ [] := by decide

/-- The match of a non-empty path in the routing tree of `main`. -/
theorem tree_matchPath (fuel : Nat) (q : List Char) (hq : q ≠ []) (hf : q.length < fuel) :
    matchPath fuel (ServeMux.tree mainMux) q =
      if (firstSegment q).1 = "api".data ∧ (firstSegment q).2 ≠ [] ∧
          (firstSegment (firstSegment q).2).2 = [] then
        if (firstSegment (firstSegment q).2).1 = "tickers".data then some tickersLeaf
        else if (firstSegment (firstSegment q).2).1 = "calculate".data then some calculateLeaf
        else some fsEntry
      else some fsEntry := by
  have hroot : routingNode.multiChild (ServeMux.tree mainMux) = some fsEntry := by decide
  have hapiLeaf : routingNode.leaf apiNode = none := by decide
  have hapiMulti : routingNode.multiChild apiNode = none := by decide
  have hl1 := firstSegment_snd_length q hq
  obtain ⟨f, rfl⟩ : ∃ f, fuel = f + 1 := ⟨fuel - 1, by omega⟩
  rw [matchPath_succ f _ q tree_ne_nil hq, tree_findChild]
  generalize hs1 : (firstSegment q).1 = seg1 at *
  generalize hr1 : (firstSegment q).2 = rest1 at *
  by_cases h1 : seg1 = "api".data
  · simp only [h1, if_true, true_and]
    obtain ⟨f1, rfl⟩ : ∃ f1, f = f1 + 1 := ⟨f - 1, by
      have : 0 < q.length := List.length_pos.mpr hq
      omega⟩
    by_cases h2 : rest1 = []
    · subst h2
      rw [matchPath_end f1 _ apiNode_ne_nil, hapiLeaf]
      simp [hroot]
    · have hl2 := firstSegment_snd_length rest1 h2
      rw [matchPath_succ f1 _ rest1 apiNode_ne_nil h2, apiNode_findChild]
      generalize hs2 : (firstSegment rest1).1 = seg2 at *
      generalize hr2 : (firstSegment rest1).2 = rest2 at *
      obtain ⟨f2, rfl⟩ : ∃ f2, f1 = f2 + 1 := ⟨f1 - 1, by
        have : 0 < rest1.length := List.length_pos.mpr h2
        omega⟩
      have hleafcase : ∀ (e : routingEntry), e.rest = [] → e.pat.multi = false →
          matchPath (f2 + 1) [e] rest2 = if rest2 = [] then some e else none := by
        intro e he hm
        by_cases h3 : rest2 = []
        · subst h3
          rw [matchPath_end f2 _ (by simp)]
          simp [routingNode.leaf, he, hm]
        · rw [matchPath_succ f2 _ rest2 (by simp) h3, leaf_findChild e he,
            matchPath_nil_node]
          simp [routingNode.multiChild, he, hm, h3]
      by_cases h3 : seg2 = "tickers".data
      · simp only [h3, if_true, h2, not_false_eq_true, true_and]
        rw [hleafcase tickersLeaf rfl rfl]
        by_cases h4 : rest2 = [] <;> simp [h4, hapiMulti, hroot, h2]
      · by_cases h5 : seg2 = "calculate".data
        · simp only [h5, if_true, h2, not_false_eq_true, true_and]
          have hne : ¬ "calculate".data = "tickers".data := by decide
          simp only [hne, if_false]
          rw [hleafcase calculateLeaf rfl rfl]
          by_cases h4 : rest2 = [] <;> simp [h4, hapiMulti, hroot, h2]
        · simp only [h3, h5, if_false]
          rw [matchPath_nil_node]
          simp [hapiMulti, hroot]
  · simp only [h1, if_false, false_and]
    rw [matchPath_nil_node]
    simp [hroot]


/-- What `dropWhile` leaves, when not empty, begins with a slash. -/
theorem dropWhile_slash_cons (l : List Char) (h : l.dropWhile (fun c => c != '/') ≠ []) :
    l.dropWhile (fun c => c != '/') = '/' :: (l.dropWhile (fun c => c != '/')).tail := by
  have hh := List.head_dropWhile_not (fun c => c != '/') l h
  cases hd : l.dropWhile (fun c => c != '/') with
  | nil => exact absurd hd h
  | cons a t =>
    simp only [hd, List.head_cons] at hh
    have : a = '/' := by simpa using hh
    rw [this, List.tail_cons]

/-- A path that ends in a slash matches the pattern `/` only. -/
theorem tree_matchPath_slash (fuel : Nat) (q : List Char) (hlast : q.getLast? = some '/')
    (hf : q.length < fuel) :
    matchPath fuel (ServeMux.tree mainMux) q = some fsEntry := by
  have hq : q ≠ [] := by
    intro h; subst h; simp at hlast
  rw [tree_matchPath fuel q hq hf]
  split
  · rename_i hc
    obtain ⟨_, hr1, hr2⟩ := hc
    -- the second segment is the final slash itself
    have hseg2 : (firstSegment (firstSegment q).2).1 = ['/'] := by
      by_cases hq1 : q = ['/']
      · subst hq1
        exact absurd rfl hr1
      · have hrest1 : (firstSegment q).2 = q.tail.dropWhile (fun c => c != '/') := by
          simp [firstSegment, hq1]
        rw [hrest1] at hr1 hr2 ⊢
        have hsuf : q.tail.dropWhile (fun c => c != '/') <:+ q :=
          (List.dropWhile_suffix _).trans (List.tail_suffix q)
        have hlast1 : (q.tail.dropWhile (fun c => c != '/')).getLast? = some '/' := by
          rw [← getLast?_of_suffix hsuf hr1]
          exact hlast
        rw [dropWhile_slash_cons q.tail hr1] at hr2 hlast1 ⊢
        generalize (q.tail.dropWhile (fun c => c != '/')).tail = t at hr2 hlast1 ⊢
        by_cases ht : t = []
        · subst ht
          rfl
        · exfalso
          have h2 : (firstSegment ('/' :: t)).2 = t.dropWhile (fun c => c != '/') := by
            simp [firstSegment, ht]
          rw [h2, List.dropWhile_eq_nil_iff] at hr2
          have hl : t.getLast? = some '/' := by
            rw [List.getLast?_cons] at hlast1
            cases hx : t.getLast? with
            | none => exact absurd (List.getLast?_eq_none_iff.mp hx) ht
            | some x =>
              rw [hx] at hlast1
              simpa using hlast1
          have := hr2 '/' (mem_of_getLast? hl)
          simp at this
    rw [hseg2]
    have e1 : ¬ ['/'] = "tickers".data := by decide
    have e2 : ¬ ['/'] = "calculate".data := by decide
    simp [e1, e2]
  · rfl


/-- A segment without `%` is its own unescaped form. -/
theorem PathUnescape_id (s : List Char) (h : '%' ∉ s) : PathUnescape s = some s := by
  induction s with
  | nil => rfl
  | cons c rest ih =>
    have hc : c ≠ '%' := fun e => h (by rw [e]; exact List.mem_cons_self _ _)
    have ih' := ih (fun hm => h (List.mem_cons_of_mem _ hm))
    unfold PathUnescape
    split
    · rename_i heq; cases heq
    · rename_i heq
      exact absurd (List.cons.inj heq).1 hc
    · rename_i heq
      exact absurd (List.cons.inj heq).1 hc
    · rename_i c' rest' _ _ heq
      obtain ⟨h1, h2⟩ := List.cons.inj heq
      subst h1 h2
      rw [ih']
      rfl

/-- The mux helper leaves a segment without `%` as it is. -/
theorem pathUnescape_id (s : List Char) (h : '%' ∉ s) : pathUnescape s = s := by
  simp [pathUnescape, PathUnescape_id s h]

/-- A path without `%` that has the two segments `api` and `name`, and nothing
after them, is `api/name` behind its first byte. -/
theorem two_segments (q : List Char) (name : List Char) (hname : name ≠ ['/'])
    (hpct : '%' ∉ q)
    (h1 : (firstSegment q).1 = "api".data) (h2 : (firstSegment q).2 ≠ [])
    (h3 : (firstSegment (firstSegment q).2).1 = name)
    (h4 : (firstSegment (firstSegment q).2).2 = []) :
    q.tail = "api".data ++ '/' :: name := by
  have hq1 : q ≠ ['/'] := by
    intro h; subst h
    exact absurd rfl h2
  have hpt : '%' ∉ q.tail := fun hm => hpct (List.mem_of_mem_tail hm)
  have hseg1 : (firstSegment q).1 = q.tail.takeWhile (fun c => c != '/') := by
    simp only [firstSegment, hq1, if_false]
    exact pathUnescape_id _ (fun hm => hpt ((List.takeWhile_prefix _).subset hm))
  have hrest1 : (firstSegment q).2 = q.tail.dropWhile (fun c => c != '/') := by
    simp [firstSegment, hq1]
  rw [hseg1] at h1
  rw [hrest1] at h2 h3 h4
  have hcons := dropWhile_slash_cons q.tail h2
  have hpd : '%' ∉ (q.tail.dropWhile (fun c => c != '/')).tail := fun hm =>
    hpt ((List.dropWhile_suffix _).subset (List.mem_of_mem_tail hm))
  rw [hcons] at h3 h4
  generalize (q.tail.dropWhile (fun c => c != '/')).tail = t at h3 h4 hcons hpd
  have ht : '/' :: t ≠ ['/'] := by
    intro h
    rw [h] at h3
    exact hname h3.symm
  have hseg2 : (firstSegment ('/' :: t)).1 = t.takeWhile (fun c => c != '/') := by
    simp only [firstSegment, ht, if_false, List.tail_cons]
    exact pathUnescape_id _ (fun hm => hpd ((List.takeWhile_prefix _).subset hm))
  have hrest2 : (firstSegment ('/' :: t)).2 = t.dropWhile (fun c => c != '/') := by
    simp [firstSegment, ht]
  rw [hseg2] at h3
  rw [hrest2] at h4
  have htt : t = name := by
    have := List.takeWhile_append_dropWhile (fun c => c != '/') t
    rw [h3, h4, List.append_nil] at this
    exact this.symm
  have := List.takeWhile_append_dropWhile (fun c => c != '/') q.tail
  rw [h1, hcons, htt] at this
  exact this.symm

/-- A rooted path without `%` that is neither API path matches the pattern `/`. -/
theorem matchTree_other (p : String) (hroot : p.data.head? = some '/') (hpct : '%' ∉ p.data)
    (h1 : p ≠ "/api/tickers") (h2 : p ≠ "/api/calculate") :
    ServeMux.matchTree mainMux p = some fsEntry := by
  have hq : p.data ≠ [] := by
    intro h; rw [h] at hroot; simp at hroot
  have hp : p.data = '/' :: p.data.tail := by
    cases hd : p.data with
    | nil => exact absurd hd hq
    | cons a t =>
      rw [hd] at hroot
      simp only [List.head?_cons, Option.some.injEq] at hroot
      rw [hroot, List.tail_cons]
  unfold ServeMux.matchTree
  rw [tree_matchPath _ p.data hq (by show p.data.length < p.data.length + 1; omega)]
  split
  · rename_i hc
    obtain ⟨hs1, hr1, hr2⟩ := hc
    split
    · rename_i hs2
      exfalso
      apply h1
      have := two_segments p.data _ (by decide) hpct hs1 hr1 hs2 hr2
      apply String.ext
      rw [hp, this]
      rfl
    · split
      · rename_i hs2
        exfalso
        apply h2
        have := two_segments p.data _ (by decide) hpct hs1 hr1 hs2 hr2
        apply String.ext
        rw [hp, this]
        rfl
      · rfl
  · rfl


/-- No rooted path is redirected to its form with a slash added: the only
pattern of `main` that ends in a slash is `/` itself. -/
theorem matchOrRedirect_rooted (p : String) (u : Option URL)
    (hroot : p.data.head? = some '/') :
    ServeMux.matchOrRedirect mainMux p u = (ServeMux.matchTree mainMux p, none) := by
  unfold ServeMux.matchOrRedirect
  cases u with
  | none => rfl
  | some u =>
    simp only
    split
    · have hslash : ServeMux.matchTree mainMux (p ++ "/") = some fsEntry := by
        unfold ServeMux.matchTree
        apply tree_matchPath_slash
        · simp [String.data_append]
        · show (p ++ "/").data.length < (p ++ "/").data.length + 1
          omega
      have hcount : 1 ≤ p.data.count '/' := by
        cases hd : p.data with
        | nil => rw [hd] at hroot; simp at hroot
        | cons a t =>
          rw [hd] at hroot
          simp only [List.head?_cons, Option.some.injEq] at hroot
          subst hroot
          simp only [List.count_cons_self]
          omega
      have hlast : (p ++ "/").data.getLast? = some '/' := by simp [String.data_append]
      have hex : exactMatch (some fsEntry) (p ++ "/") = false := by
        have hm : fsEntry.pat.multi = true := by decide
        have hs : fsEntry.pat.segments.length = 0 := by decide
        simp only [exactMatch, hm, hs, hlast]
        simp
        omega
      rw [hslash, hex]
      simp
    · rfl

/-- The path `/api/tickers` matches its own pattern. -/
theorem matchTree_tickers : ServeMux.matchTree mainMux "/api/tickers" = some tickersLeaf := by
  decide

/-- The path `/api/calculate` matches its own pattern. -/
theorem matchTree_calculate :
    ServeMux.matchTree mainMux "/api/calculate" = some calculateLeaf := by
  decide


/-- The handler for a rooted path: a redirect when cleaning changes the path of
a request other than `CONNECT`, otherwise the handler of the match. -/
theorem findHandler_rooted (r : Request) (hroot : r.URL.EscapedPath.data.head? = some '/') :
    ServeMux.findHandler mainMux r =
      if r.Method ≠ "CONNECT" ∧ cleanPath r.URL.EscapedPath ≠ r.URL.EscapedPath then
        Handler.redirect (cleanPath r.URL.EscapedPath) r.URL.RawQuery
      else
        match ServeMux.matchTree mainMux r.URL.EscapedPath with
        | some e => e.h
        | none => Handler.notFound := by
  unfold ServeMux.findHandler
  by_cases hm : r.Method = "CONNECT"
  · simp only [hm, if_true, matchOrRedirect_rooted _ _ hroot, ne_eq, not_true_eq_false,
      false_and, if_false]
  · simp only [hm, if_false, matchOrRedirect_rooted _ _ (cleanPath_head r.URL.EscapedPath),
      ne_eq, not_false_eq_true, true_and]
    by_cases hc : cleanPath r.URL.EscapedPath = r.URL.EscapedPath
    · simp only [hc, not_true_eq_false, if_false]
    · simp only [hc, not_false_eq_true, if_true]

/-! ## Facts about the HTTP client -/

/-- The client only adds to the requests already sent. -/
theorem clientDo_sent_prefix (nw : Network) (budget : Nat) (sent : List String) (url : String) :
    ∃ more, (clientDo nw budget sent url).1 = sent ++ more := by
  induction budget generalizing sent url with
  | zero => exact ⟨[], by simp [clientDo]⟩
  | succ b ih =>
    unfold clientDo
    split
    · exact ⟨[], by simp⟩
    · split
      · exact ⟨[url], rfl⟩
      · split
        · split
          · exact ⟨[url], rfl⟩
          · split
            · exact ⟨[url], rfl⟩
            · rename_i next _
              obtain ⟨more, hmore⟩ := ih (sent ++ [url]) next
              exact ⟨url :: more, by rw [hmore]; simp⟩
        · exact ⟨[url], rfl⟩

/-- With budget left, the next request sent is the one for `url`. -/
theorem clientDo_sent_first (nw : Network) (budget : Nat) (sent : List String) (url : String)
    (ht : transportError url = none) :
    ∃ more, (clientDo nw (budget + 1) sent url).1 = sent ++ url :: more := by
  unfold clientDo
  rw [ht]
  simp only
  split
  · exact ⟨[], rfl⟩
  · split
    · split
      · exact ⟨[], rfl⟩
      · split
        · exact ⟨[], rfl⟩
        · rename_i next _
          obtain ⟨more, hmore⟩ := clientDo_sent_prefix nw budget (sent ++ [url]) next
          exact ⟨more, by rw [hmore]; simp⟩
    · exact ⟨[], rfl⟩

/-- A URL that `http.Get` rejects sends nothing. -/
theorem clientGet_rejected (nw : Network) (url : String) (e : URLError)
    (h : Network.rejected nw url = some e) : clientGet nw url = ([], .error e) := by
  simp [clientGet, h]

/-- A URL that `http.Get` accepts passes the checks of the transport. -/
theorem transportError_accepted (nw : Network) (url : String)
    (h : Network.rejected nw url = none) : transportError url = none := by
  unfold Network.rejected at h
  split at h
  · cases h
  · split at h
    · cases h
    · exact h

/-- A URL that `http.Get` accepts is requested first. -/
theorem clientGet_accepted (nw : Network) (url : String)
    (h : Network.rejected nw url = none) : ∃ more, (clientGet nw url).1 = url :: more := by
  obtain ⟨more, hmore⟩ := clientDo_sent_first nw 9 [] url (transportError_accepted nw url h)
  exact ⟨more, by simp [clientGet, h, hmore]⟩

/-- One request is all that is sent when the first answer is not a redirect
with a `Location`. -/
theorem clientGet_single (nw : Network) (url : String)
    (h : Network.rejected nw url = none)
    (hfinal : ∀ resp, nw.roundTrip [] url = .ok resp →
      shouldRedirect resp.StatusCode = false ∨ Header.Get resp.Header "Location" = "") :
    (clientGet nw url).1 = [url] := by
  simp only [clientGet, h]
  unfold clientDo
  rw [transportError_accepted nw url h]
  simp only
  split
  · rfl
  · rename_i resp hresp
    rcases hfinal resp hresp with h1 | h1
    · simp [h1]
    · simp [h1]

/-- A URL that `http.Get` accepts has the query of its text. -/
theorem parseRawQuery_accepted (nw : Network) (url : String)
    (h : Network.rejected nw url = none) : parseRawQuery url = some (splitRawQuery url) := by
  unfold Network.rejected at h
  unfold parseRawQuery
  cases hp : urlParseError url with
  | some e => rw [hp] at h; cases h
  | none => rfl

/-- A control byte before the fragment makes `http.Get` reject the URL. -/
theorem rejected_of_control_byte (nw : Network) (url : String)
    (h : stringContainsCTLByte (cut '#' url.data).1 = true) :
    Network.rejected nw url ≠ none := by
  simp [Network.rejected, urlParseError, h]

/-- The outbound GETs after one more call of `http.Get`. -/
theorem outboundGETs_append (nw : Network) (s s1 : World) (url : String)
    (h : s1.calls = s.calls ++ [url]) :
    outboundGETs nw s1 = outboundGETs nw s ++ (clientGet nw url).1 := by
  simp [outboundGETs, h]

/-! ## The claims -/

/-- C1: a request to `calculateHandler` whose query has no `benchmark_ticker`
parameter, or whose first `benchmark_ticker` value is empty, is answered with
status 400 and the plain-text message `Missing 'benchmark_ticker' query
parameter`, and no `http.Get` call is made (the process state is unchanged). -/
theorem calculateHandler_missing_parameter (net : Transport) (s : World) (r : Request)
    (h : (∀ x, ("benchmark_ticker", x) ∉ r.URL.Query) ∨
      (∃ rest, Values.index r.URL.Query "benchmark_ticker" = "" :: rest)) :
    (serve (calculateHandler net) s r).2.status = 400 ∧
    (serve (calculateHandler net) s r).2.body = "Missing 'benchmark_ticker' query parameter\n" ∧
    Header.Get (serve (calculateHandler net) s r).2.sentHeader "Content-Type"
      = "text/plain; charset=utf-8" ∧
    (serve (calculateHandler net) s r).1.calls = s.calls ∧
    (serve (calculateHandler net) s r).1 = s := by
  have hget : Values.Get r.URL.Query "benchmark_ticker" = "" := by
    rcases h with h | ⟨rest, h⟩
    · exact Values.Get_of_absent _ _ h
    · simp [Values.Get, h]
  rw [serve_calculate_missing net s r hget, finishRequest_Error_fresh]
  simp [StatusBadRequest, Header.Get, List.lookup]

/-- Witness of C1: the raw query `benchmark_ticker=` (an empty first value). -/
theorem calculateHandler_missing_parameter_witness :
    (∃ rest, Values.index (getRequest "/api/calculate" "benchmark_ticker=&x=1").URL.Query
        "benchmark_ticker" = "" :: rest) ∧
    (serve (calculateHandler netNotFound) (World.initial [])
        (getRequest "/api/calculate" "benchmark_ticker=&x=1")).2.status = 400 ∧
    (serve (calculateHandler netNotFound) (World.initial [])
        (getRequest "/api/calculate" "benchmark_ticker=&x=1")).1.calls = [] :=
  have h : ∃ rest, Values.index (getRequest "/api/calculate" "benchmark_ticker=&x=1").URL.Query
      "benchmark_ticker" = "" :: rest := ⟨[], by decide⟩
  have t := calculateHandler_missing_parameter netNotFound (World.initial [])
    (getRequest "/api/calculate" "benchmark_ticker=&x=1") (Or.inr h)
  ⟨h, t.1, t.2.2.2.1⟩

/-- C2, as stated, fails: the handler does not always issue exactly one
outbound GET.  For the value `a\nb` (received as `benchmark_ticker=a%0Ab`) the
URL holds a control byte, `http.Get` rejects it and no GET is sent (the caller
gets 500); and when the backend answers the first GET with a redirect, the one
call of `http.Get` sends a second GET. -/
theorem calculateHandler_not_one_get :
    Values.Get (getRequest "/api/calculate" "benchmark_ticker=a%0Ab").URL.Query
        "benchmark_ticker" = "a\nb" ∧
    (serve (calculateHandler (Network.Get nwPlain)) (World.initial [])
        (getRequest "/api/calculate" "benchmark_ticker=a%0Ab")).1.calls
      = ["http://python-server:8001/calculate?benchmark_ticker=a\nb"] ∧
    outboundGETs nwPlain (serve (calculateHandler (Network.Get nwPlain)) (World.initial [])
        (getRequest "/api/calculate" "benchmark_ticker=a%0Ab")).1 = [] ∧
    (serve (calculateHandler (Network.Get nwPlain)) (World.initial [])
        (getRequest "/api/calculate" "benchmark_ticker=a%0Ab")).2.status = 500 ∧
    Values.Get (getRequest "/api/calculate" "benchmark_ticker=SPY").URL.Query
        "benchmark_ticker" = "SPY" ∧
    outboundGETs nwMoved (serve (calculateHandler (Network.Get nwMoved)) (World.initial [])
        (getRequest "/api/calculate" "benchmark_ticker=SPY")).1
      = ["http://python-server:8001/calculate?benchmark_ticker=SPY",
         "http://python-server:8001/moved"] := by
  decide

/-- C2, amended: for a request with non-empty `benchmark_ticker` value `X` and
base URL `B`, `calculateHandler` makes exactly one call of `http.Get`, and the
URL passed is the string `B ++ "/calculate?benchmark_ticker=" ++ X`, with `X`
as it is.  The outbound GETs are those of that call: none when `http.Get`
rejects the URL (as it does when the URL holds a control byte); otherwise the
first goes to that URL, and it is the only one unless the backend answers it
with a redirect that names a `Location`. -/
theorem calculateHandler_get_call (net : Transport) (nw : Network) (s : World) (r : Request)
    (B X : String) (hB : s.pythonCalculatorURL = B)
    (hX : Values.Get r.URL.Query "benchmark_ticker" = X) (hne : X ≠ "") :
    (serve (calculateHandler net) s r).1.calls
      = s.calls ++ [B ++ "/calculate?benchmark_ticker=" ++ X] ∧
    outboundGETs nw (serve (calculateHandler (Network.Get nw)) s r).1
      = outboundGETs nw s ++ (clientGet nw (B ++ "/calculate?benchmark_ticker=" ++ X)).1 ∧
    (Network.rejected nw (B ++ "/calculate?benchmark_ticker=" ++ X) ≠ none →
      (clientGet nw (B ++ "/calculate?benchmark_ticker=" ++ X)).1 = []) ∧
    (stringContainsCTLByte (cut '#' (B ++ "/calculate?benchmark_ticker=" ++ X).data).1 = true →
      (clientGet nw (B ++ "/calculate?benchmark_ticker=" ++ X)).1 = []) ∧
    (Network.rejected nw (B ++ "/calculate?benchmark_ticker=" ++ X) = none →
      ∃ more, (clientGet nw (B ++ "/calculate?benchmark_ticker=" ++ X)).1
        = (B ++ "/calculate?benchmark_ticker=" ++ X) :: more) ∧
    (Network.rejected nw (B ++ "/calculate?benchmark_ticker=" ++ X) = none →
      (∀ resp, nw.roundTrip [] (B ++ "/calculate?benchmark_ticker=" ++ X) = .ok resp →
        shouldRedirect resp.StatusCode = false ∨ Header.Get resp.Header "Location" = "") →
      (clientGet nw (B ++ "/calculate?benchmark_ticker=" ++ X)).1
        = [B ++ "/calculate?benchmark_ticker=" ++ X]) := by
  subst hB hX
  have hrej : ∀ url, Network.rejected nw url ≠ none → (clientGet nw url).1 = [] := by
    intro url h
    cases hr : Network.rejected nw url with
    | none => exact absurd hr h
    | some e => rw [clientGet_rejected nw url e hr]
  refine ⟨serve_calculate_calls net s r hne, ?_, hrej _, ?_, ?_, ?_⟩
  · exact outboundGETs_append nw s _ _ (serve_calculate_calls _ s r hne)
  · intro h
    exact hrej _ (rejected_of_control_byte nw _ h)
  · exact clientGet_accepted nw _
  · exact clientGet_single nw _

/-- Witness of C2: the value `SPY&x=1`, received percent-encoded, goes out
unescaped, in one GET. -/
theorem calculateHandler_get_call_witness :
    Values.Get (getRequest "/api/calculate" "benchmark_ticker=SPY%26x%3D1").URL.Query
        "benchmark_ticker" = "SPY&x=1" ∧
    (serve (calculateHandler (Network.Get nwPlain)) (World.initial [])
        (getRequest "/api/calculate" "benchmark_ticker=SPY%26x%3D1")).1.calls
      = [] ++ ["http://python-server:8001" ++ "/calculate?benchmark_ticker=" ++ "SPY&x=1"] ∧
    (clientGet nwPlain ("http://python-server:8001" ++ "/calculate?benchmark_ticker=" ++
        "SPY&x=1")).1
      = ["http://python-server:8001" ++ "/calculate?benchmark_ticker=" ++ "SPY&x=1"] :=
  have t := calculateHandler_get_call (Network.Get nwPlain) nwPlain (World.initial [])
    (getRequest "/api/calculate" "benchmark_ticker=SPY%26x%3D1")
    "http://python-server:8001" "SPY&x=1" rfl (by decide) (by decide)
  ⟨by decide, t.1, t.2.2.2.2.2 (by decide) (fun resp h => by cases h; exact Or.inl (by decide))⟩

/-- C3, as stated, fails: `tickersHandler` does not always issue exactly one
outbound GET.  When the backend answers `/tickers` with `302` and a `Location`,
the one call of `http.Get` sends two GETs; and when the base URL holds a
control byte, it sends none. -/
theorem tickersHandler_not_one_get :
    outboundGETs nwMoved (serve (tickersHandler (Network.Get nwMoved)) (World.initial [])
        (getRequest "/api/tickers" "")).1
      = ["http://python-server:8001/tickers", "http://python-server:8001/moved"] ∧
    (serve (tickersHandler (Network.Get nwPlain))
        (mainInit (World.initial [("PYTHON_CALCULATOR_URL", "http://calc\t:9000")]))
        (getRequest "/api/tickers" "")).1.calls = ["http://calc\t:9000/tickers"] ∧
    outboundGETs nwPlain (serve (tickersHandler (Network.Get nwPlain))
        (mainInit (World.initial [("PYTHON_CALCULATOR_URL", "http://calc\t:9000")]))
        (getRequest "/api/tickers" "")).1 = [] := by
  decide

/-- C3, amended: whatever the request, `tickersHandler` makes exactly one call
of `http.Get`, with the URL `B ++ "/tickers"`.  The outbound GETs are those of
that call: none when `http.Get` rejects the URL, otherwise the first goes to
that URL, and it is the only one unless the backend answers it with a redirect
that names a `Location`.  When the call completes, the response header sent is
`Content-Type: application/json` and nothing else, whatever headers the
backend returned. -/
theorem tickersHandler_get_call_and_content_type (net : Transport) (nw : Network) (s : World)
    (r : Request) (B : String) (hB : s.pythonCalculatorURL = B) :
    (serve (tickersHandler net) s r).1.calls = s.calls ++ [B ++ "/tickers"] ∧
    outboundGETs nw (serve (tickersHandler (Network.Get nw)) s r).1
      = outboundGETs nw s ++ (clientGet nw (B ++ "/tickers")).1 ∧
    (Network.rejected nw (B ++ "/tickers") ≠ none → (clientGet nw (B ++ "/tickers")).1 = []) ∧
    (Network.rejected nw (B ++ "/tickers") = none →
      ∃ more, (clientGet nw (B ++ "/tickers")).1 = (B ++ "/tickers") :: more) ∧
    (Network.rejected nw (B ++ "/tickers") = none →
      (∀ resp, nw.roundTrip [] (B ++ "/tickers") = .ok resp →
        shouldRedirect resp.StatusCode = false ∨ Header.Get resp.Header "Location" = "") →
      (clientGet nw (B ++ "/tickers")).1 = [B ++ "/tickers"]) ∧
    (∀ resp, net (B ++ "/tickers") = .ok resp →
      Header.Get (serve (tickersHandler net) s r).2.sentHeader "Content-Type"
        = "application/json" ∧
      (serve (tickersHandler net) s r).2.sentHeader
        = [("Content-Type", ["application/json"])]) := by
  subst hB
  refine ⟨serve_tickers_calls net s r, ?_, ?_, ?_, ?_, ?_⟩
  · exact outboundGETs_append nw s _ _ (serve_tickers_calls _ s r)
  · intro h
    cases hr : Network.rejected nw (s.pythonCalculatorURL ++ "/tickers") with
    | none => exact absurd hr h
    | some e => rw [clientGet_rejected nw _ e hr]
  · exact clientGet_accepted nw _
  · exact clientGet_single nw _
  · intro resp hresp
    rw [serve_tickers, hresp]
    simp only [finishRequest_relay]
    simp [Header.Get, List.lookup]

/-- Witness of C3: a backend that answers `text/html`, and a network on which
one GET is sent. -/
theorem tickersHandler_get_call_and_content_type_witness :
    (serve (tickersHandler netNotFound) (World.initial [])
        (getRequest "/api/tickers" "a=b")).1.calls = ["http://python-server:8001/tickers"] ∧
    (clientGet nwPlain ("http://python-server:8001" ++ "/tickers")).1
      = ["http://python-server:8001" ++ "/tickers"] ∧
    Header.Get (serve (tickersHandler netNotFound) (World.initial [])
        (getRequest "/api/tickers" "a=b")).2.sentHeader "Content-Type" = "application/json" :=
  have t := tickersHandler_get_call_and_content_type netNotFound nwPlain (World.initial [])
    (getRequest "/api/tickers" "a=b") "http://python-server:8001" rfl
  ⟨t.1, t.2.2.2.2.1 (by decide) (fun resp h => by cases h; exact Or.inl (by decide)),
    (t.2.2.2.2.2 _ rfl).1⟩

/-- C4: for `tickersHandler`, and for `calculateHandler` with a non-empty
`benchmark_ticker`, when the `http.Get` call completes with a response whose
body bytes are `b`, the body written to the caller is exactly `b` and the
`Content-Type` sent is `application/json`. -/
theorem relay_body_verbatim (net : Transport) (s : World) (r : Request) (resp : Response) :
    (net (s.pythonCalculatorURL ++ "/tickers") = .ok resp →
      (serve (tickersHandler net) s r).2.body = resp.bytes ∧
      Header.Get (serve (tickersHandler net) s r).2.sentHeader "Content-Type"
        = "application/json") ∧
    (Values.Get r.URL.Query "benchmark_ticker" ≠ "" →
      net (s.pythonCalculatorURL ++ "/calculate?benchmark_ticker=" ++
        Values.Get r.URL.Query "benchmark_ticker") = .ok resp →
      (serve (calculateHandler net) s r).2.body = resp.bytes ∧
      Header.Get (serve (calculateHandler net) s r).2.sentHeader "Content-Type"
        = "application/json") := by
  constructor
  · intro hresp
    rw [serve_tickers, hresp]
    simp only [finishRequest_relay]
    simp [Header.Get, List.lookup, Response.bytes]
  · intro hne hresp
    rw [serve_calculate_present net s r hne, hresp]
    simp only [finishRequest_relay]
    simp [Header.Get, List.lookup, Response.bytes]

/-- Witness of C4: a body read in the chunks `<h1>`, the empty chunk and
`nope</h1>`. -/
theorem relay_body_verbatim_witness :
    (serve (tickersHandler netNotFound) (World.initial [])
        (getRequest "/api/tickers" "")).2.body = "<h1>nope</h1>" ∧
    (serve (calculateHandler netNotFound) (World.initial [])
        (getRequest "/api/calculate" "benchmark_ticker=SPY")).2.body = "<h1>nope</h1>" :=
  have t := relay_body_verbatim netNotFound (World.initial [])
    (getRequest "/api/calculate" "benchmark_ticker=SPY")
    { StatusCode := 404, Header := [("Content-Type", ["text/html"])],
      Body := ["<h1>", "", "nope</h1>"] }
  ⟨(t.1 rfl).1, (t.2 (by decide) rfl).1⟩

/-- C5: when `http.Get` fails with any error `e`, `tickersHandler` and
`calculateHandler` (with a non-empty `benchmark_ticker`) answer with status 500
and the fixed message `Failed to connect to calculation service`; status,
headers and body are the same for every `e`, the body does not contain the
text of `e`, and that text goes to the log. -/
theorem backend_unreachable_generic_500 (net : Transport) (s : World) (r : Request)
    (e : URLError) :
    (net (s.pythonCalculatorURL ++ "/tickers") = .error e →
      (serve (tickersHandler net) s r).2 =
        { header := [("X-Content-Type-Options", ["nosniff"]),
                     ("Content-Type", ["text/plain; charset=utf-8"])],
          wroteHeader := true, status := 500,
          sentHeader := [("X-Content-Type-Options", ["nosniff"]),
                         ("Content-Type", ["text/plain; charset=utf-8"])],
          body := "Failed to connect to calculation service\n" } ∧
      ¬ (e.Error.data <:+: (serve (tickersHandler net) s r).2.body.data) ∧
      (serve (tickersHandler net) s r).1.logged =
        s.logged ++ ["Error connecting to Python tickers endpoint: " ++ e.Error]) ∧
    (Values.Get r.URL.Query "benchmark_ticker" ≠ "" →
      net (s.pythonCalculatorURL ++ "/calculate?benchmark_ticker=" ++
        Values.Get r.URL.Query "benchmark_ticker") = .error e →
      (serve (calculateHandler net) s r).2 =
        { header := [("X-Content-Type-Options", ["nosniff"]),
                     ("Content-Type", ["text/plain; charset=utf-8"])],
          wroteHeader := true, status := 500,
          sentHeader := [("X-Content-Type-Options", ["nosniff"]),
                         ("Content-Type", ["text/plain; charset=utf-8"])],
          body := "Failed to connect to calculation service\n" } ∧
      ¬ (e.Error.data <:+: (serve (calculateHandler net) s r).2.body.data) ∧
      (serve (calculateHandler net) s r).1.logged =
        s.logged ++ ["Error connecting to Python calculate endpoint: " ++ e.Error]) := by
  constructor
  · intro herr
    rw [serve_tickers, herr]
    rw [finishRequest_Error_fresh]
    exact ⟨rfl, error_text_not_in_message e, rfl⟩
  · intro hne herr
    rw [serve_calculate_present net s r hne, herr]
    rw [finishRequest_Error_fresh]
    exact ⟨rfl, error_text_not_in_message e, rfl⟩

/-- Witness of C5: a refused connection. -/
theorem backend_unreachable_generic_500_witness :
    (serve (tickersHandler netDown) (World.initial []) (getRequest "/api/tickers" "")).2.status
      = 500 ∧
    (serve (calculateHandler netDown) (World.initial [])
        (getRequest "/api/calculate" "benchmark_ticker=SPY")).2.body
      = "Failed to connect to calculation service\n" ∧
    (serve (calculateHandler netDown) (World.initial [])
        (getRequest "/api/calculate" "benchmark_ticker=SPY")).1.logged
      = ["Error connecting to Python calculate endpoint: " ++
          "Get \"http://python-server:8001/calculate?benchmark_ticker=SPY\": " ++
          "dial tcp: connection refused"] :=
  have t1 := (backend_unreachable_generic_500 netDown (World.initial [])
    (getRequest "/api/tickers" "")
    { Op := "Get", URL := "http://python-server:8001/tickers",
      Err := "dial tcp: connection refused" }).1 rfl
  have t2 := (backend_unreachable_generic_500 netDown (World.initial [])
    (getRequest "/api/calculate" "benchmark_ticker=SPY")
    { Op := "Get", URL := "http://python-server:8001/calculate?benchmark_ticker=SPY",
      Err := "dial tcp: connection refused" }).2 (by decide) rfl
  ⟨congrArg ResponseWriter.status t1.1, congrArg ResponseWriter.body t2.1, t2.2.2⟩

/-- C6, as stated, fails: a backend answer with status 404 reaches the caller
of either handler with status 200. -/
theorem backend_status_not_relayed :
    netNotFound "http://python-server:8001/tickers" =
      .ok { StatusCode := 404, Header := [("Content-Type", ["text/html"])],
            Body := ["<h1>", "", "nope</h1>"] } ∧
    (serve (tickersHandler netNotFound) (World.initial [])
        (getRequest "/api/tickers" "")).2.status = 200 ∧
    (serve (calculateHandler netNotFound) (World.initial [])
        (getRequest "/api/calculate" "benchmark_ticker=SPY")).2.status = 200 ∧
    ¬ (∀ (net : Transport) (s : World) (r : Request) (resp : Response),
        net (s.pythonCalculatorURL ++ "/tickers") = .ok resp →
        (serve (tickersHandler net) s r).2.status = resp.StatusCode) := by
  refine ⟨rfl, by decide, by decide, ?_⟩
  intro h
  have h1 := h netNotFound (World.initial []) (getRequest "/api/tickers" "") _ rfl
  revert h1
  decide

/-- C6, amended: when the `http.Get` call completes and the backend answers
with any status `s`, the status both handlers send to the caller is 200 (the
handlers never call `WriteHeader` with the backend's status); the backend's
body is passed through. -/
theorem relay_status_is_200 (net : Transport) (s : World) (r : Request) (resp : Response) :
    (net (s.pythonCalculatorURL ++ "/tickers") = .ok resp →
      (serve (tickersHandler net) s r).2.status = 200 ∧
      (serve (tickersHandler net) s r).2.body = resp.bytes) ∧
    (Values.Get r.URL.Query "benchmark_ticker" ≠ "" →
      net (s.pythonCalculatorURL ++ "/calculate?benchmark_ticker=" ++
        Values.Get r.URL.Query "benchmark_ticker") = .ok resp →
      (serve (calculateHandler net) s r).2.status = 200 ∧
      (serve (calculateHandler net) s r).2.body = resp.bytes) := by
  constructor
  · intro hresp
    rw [serve_tickers, hresp]
    simp only [finishRequest_relay]
    exact ⟨rfl, rfl⟩
  · intro hne hresp
    rw [serve_calculate_present net s r hne, hresp]
    simp only [finishRequest_relay]
    exact ⟨rfl, rfl⟩

/-- Witness of the amended C6: the backend answers 404, the caller gets 200
and the backend's body. -/
theorem relay_status_is_200_witness :
    (serve (calculateHandler netNotFound) (World.initial [])
        (getRequest "/api/calculate" "benchmark_ticker=SPY")).2.status = 200 ∧
    (serve (calculateHandler netNotFound) (World.initial [])
        (getRequest "/api/calculate" "benchmark_ticker=SPY")).2.body = "<h1>nope</h1>" :=
  (relay_status_is_200 netNotFound (World.initial [])
    (getRequest "/api/calculate" "benchmark_ticker=SPY")
    { StatusCode := 404, Header := [("Content-Type", ["text/html"])],
      Body := ["<h1>", "", "nope</h1>"] }).2 (by decide) rfl

/-- C7: after the initialization in `main`, `pythonCalculatorURL` is the value
of `PYTHON_CALCULATOR_URL` when that variable is set to a non-empty string, and
the default `http://python-server:8001` when it is unset or empty; the URLs
the handlers then build and pass to `http.Get` are that base URL followed by
`/tickers`, and by `/calculate?benchmark_ticker=` and the value. -/
theorem mainInit_resolves_base_url (env : List (String × String)) (net : Transport)
    (r : Request) :
    (∀ v, env.lookup "PYTHON_CALCULATOR_URL" = some v → v ≠ "" →
      (mainInit (World.initial env)).pythonCalculatorURL = v) ∧
    (env.lookup "PYTHON_CALCULATOR_URL" = none ∨ env.lookup "PYTHON_CALCULATOR_URL" = some "" →
      (mainInit (World.initial env)).pythonCalculatorURL = "http://python-server:8001") ∧
    (serve (tickersHandler net) (mainInit (World.initial env)) r).1.calls
      = [(mainInit (World.initial env)).pythonCalculatorURL ++ "/tickers"] ∧
    (Values.Get r.URL.Query "benchmark_ticker" ≠ "" →
      (serve (calculateHandler net) (mainInit (World.initial env)) r).1.calls
        = [(mainInit (World.initial env)).pythonCalculatorURL ++
            "/calculate?benchmark_ticker=" ++ Values.Get r.URL.Query "benchmark_ticker"]) ∧
    (∀ u ∈ (serve (tickersHandler net) (mainInit (World.initial env)) r).1.calls,
      ∃ rest, u = (mainInit (World.initial env)).pythonCalculatorURL ++ rest) ∧
    (∀ u ∈ (serve (calculateHandler net) (mainInit (World.initial env)) r).1.calls,
      ∃ rest, u = (mainInit (World.initial env)).pythonCalculatorURL ++ rest) := by
  have hcalls : (mainInit (World.initial env)).calls = [] := by
    simp only [mainInit, World.initial]
    split <;> rfl
  refine ⟨?_, ?_, ?_, ?_, ?_, ?_⟩
  · intro v hv hne
    simp [mainInit, World.initial, Getenv, hv, hne]
  · intro h
    rcases h with h | h <;>
      simp [mainInit, World.initial, Getenv, h, defaultPythonCalculatorURL]
  · rw [serve_tickers_calls, hcalls, List.nil_append]
  · intro hget
    rw [serve_calculate_calls net _ r hget, hcalls, List.nil_append]
  · intro u hu
    rw [serve_tickers_calls, hcalls] at hu
    simp only [List.nil_append, List.mem_singleton] at hu
    exact ⟨"/tickers", hu⟩
  · intro u hu
    by_cases hget : Values.Get r.URL.Query "benchmark_ticker" = ""
    · rw [serve_calculate_missing net _ r hget, hcalls] at hu
      simp at hu
    · rw [serve_calculate_calls net _ r hget, hcalls] at hu
      simp only [List.nil_append, List.mem_singleton] at hu
      exact ⟨"/calculate?benchmark_ticker=" ++ Values.Get r.URL.Query "benchmark_ticker",
        by rw [hu, String.append_assoc]⟩

/-- Witness of C7: with the variable set to `http://calc:9000` the handlers
call `http://calc:9000/tickers` and `http://calc:9000/calculate?...`; with the
variable set to the empty string the default is used. -/
theorem mainInit_resolves_base_url_witness :
    (mainInit (World.initial [("PATH", "/bin"),
        ("PYTHON_CALCULATOR_URL", "http://calc:9000")])).pythonCalculatorURL
      = "http://calc:9000" ∧
    (mainInit (World.initial [("PYTHON_CALCULATOR_URL", "")])).pythonCalculatorURL
      = "http://python-server:8001" ∧
    (serve (tickersHandler netDown) (mainInit (World.initial [("PATH", "/bin"),
        ("PYTHON_CALCULATOR_URL", "http://calc:9000")]))
        (getRequest "/api/calculate" "benchmark_ticker=SPY")).1.calls
      = ["http://calc:9000/tickers"] ∧
    (serve (calculateHandler netDown) (mainInit (World.initial [("PATH", "/bin"),
        ("PYTHON_CALCULATOR_URL", "http://calc:9000")]))
        (getRequest "/api/calculate" "benchmark_ticker=SPY")).1.calls
      = ["http://calc:9000/calculate?benchmark_ticker=SPY"] :=
  have t := mainInit_resolves_base_url [("PATH", "/bin"),
    ("PYTHON_CALCULATOR_URL", "http://calc:9000")] netDown
    (getRequest "/api/calculate" "benchmark_ticker=SPY")
  ⟨t.1 "http://calc:9000" (by decide) (by decide),
   (mainInit_resolves_base_url [("PYTHON_CALCULATOR_URL", "")]
      netDown (getRequest "/api/tickers" "")).2.1 (Or.inr (by decide)),
   t.2.2.1, t.2.2.2.1 (by decide)⟩

/-- C9: whatever the request, the writer and the outcome, neither handler
changes `pythonCalculatorURL`, and neither reads the environment: run with any
other environment `env`, a handler makes the same `http.Get` calls and writes
the same response, so a change of `PYTHON_CALCULATOR_URL` after `main`'s
initialization does not move any outbound call. -/
theorem handlers_keep_base_url (net : Transport) (s : World) (w : ResponseWriter)
    (r : Request) (env : List (String × String)) :
    (tickersHandler net s w r).1.pythonCalculatorURL = s.pythonCalculatorURL ∧
    (calculateHandler net s w r).1.pythonCalculatorURL = s.pythonCalculatorURL ∧
    (tickersHandler net { s with environ := env } w r).1.calls
      = (tickersHandler net s w r).1.calls ∧
    (calculateHandler net { s with environ := env } w r).1.calls
      = (calculateHandler net s w r).1.calls ∧
    (tickersHandler net { s with environ := env } w r).2 = (tickersHandler net s w r).2 ∧
    (calculateHandler net { s with environ := env } w r).2 = (calculateHandler net s w r).2 ∧
    (tickersHandler net { s with environ := env } w r).1.pythonCalculatorURL
      = s.pythonCalculatorURL ∧
    (calculateHandler net { s with environ := env } w r).1.pythonCalculatorURL
      = s.pythonCalculatorURL := by
  refine ⟨(tickersHandler_frame net s w r).1, (calculateHandler_frame net s w r).1,
    ?_, ?_, ?_, ?_, ?_, ?_⟩
  · rw [tickersHandler_environ]
  · rw [calculateHandler_environ]
  · rw [tickersHandler_environ]
  · rw [calculateHandler_environ]
  · rw [tickersHandler_environ]; exact (tickersHandler_frame net s w r).1
  · rw [calculateHandler_environ]; exact (calculateHandler_frame net s w r).1

/-- C8, as stated, fails.  The path `/api//tickers` is neither API path, yet
the request is not dispatched to the static file server: the mux answers it
with a redirect to `/api/tickers`.  And the request `/api%2Ftickers`, whose
decoded path is exactly `/api/tickers`, is dispatched to the file server, not
to `tickersHandler`. -/
theorem routing_other_path_not_static :
    (getRequest "/api//tickers" "").URL.Path ≠ "/api/tickers" ∧
    (getRequest "/api//tickers" "").URL.Path ≠ "/api/calculate" ∧
    ServeMux.ServeHTTP mainMux (getRequest "/api//tickers" "")
      = Handler.redirect "/api/tickers" "" ∧
    ServeMux.ServeHTTP mainMux (getRequest "/api//tickers" "")
      ≠ Handler.fileServer "./static" ∧
    (getRequest "/api%2Ftickers" "").URL.Path = "/api/tickers" ∧
    ServeMux.ServeHTTP mainMux (getRequest "/api%2Ftickers" "")
      = Handler.fileServer "./static" := by
  decide

/-- C8, amended: the mux routes on the escaped path of the request.  A request
whose path is exactly `/api/tickers` is dispatched to `tickersHandler`, one
whose path is exactly `/api/calculate` to `calculateHandler`.  A request with
any other path that begins with `/` and holds no `%` (so that the path and its
escaped form are the same) is never dispatched to a proxy handler, and is
dispatched to the file server rooted at `./static` when the path is in
canonical form (`cleanPath` leaves it unchanged). -/
theorem mainMux_routing (r : Request) :
    (r.URL.EscapedPath = "/api/tickers" →
      r.URL.Path = "/api/tickers" ∧ ServeMux.ServeHTTP mainMux r = Handler.tickersHandler) ∧
    (r.URL.EscapedPath = "/api/calculate" →
      r.URL.Path = "/api/calculate" ∧
      ServeMux.ServeHTTP mainMux r = Handler.calculateHandler) ∧
    (r.URL.EscapedPath ≠ "/api/tickers" → r.URL.EscapedPath ≠ "/api/calculate" →
      r.URL.EscapedPath.data.head? = some '/' → '%' ∉ r.URL.EscapedPath.data →
      r.URL.Path = r.URL.EscapedPath ∧
      (ServeMux.ServeHTTP mainMux r).isProxy = false ∧
      (cleanPath r.URL.EscapedPath = r.URL.EscapedPath →
        ServeMux.ServeHTTP mainMux r = Handler.fileServer "./static")) := by
  refine ⟨?_, ?_, ?_⟩
  · intro hp
    have hstar : r.URL.EscapedPath ≠ "*" := by rw [hp]; decide
    have hclean : cleanPath "/api/tickers" = "/api/tickers" := by decide
    refine ⟨by simp only [URL.Path, hp]; decide, ?_⟩
    unfold ServeMux.ServeHTTP
    rw [if_neg hstar, findHandler_rooted r (by rw [hp]; decide), hp, hclean, matchTree_tickers]
    simp [tickersLeaf]
  · intro hp
    have hstar : r.URL.EscapedPath ≠ "*" := by rw [hp]; decide
    have hclean : cleanPath "/api/calculate" = "/api/calculate" := by decide
    refine ⟨by simp only [URL.Path, hp]; decide, ?_⟩
    unfold ServeMux.ServeHTTP
    rw [if_neg hstar, findHandler_rooted r (by rw [hp]; decide), hp, hclean,
      matchTree_calculate]
    simp [calculateLeaf]
  · intro h1 h2 hroot hpct
    have hstar : r.URL.EscapedPath ≠ "*" := by
      intro h
      rw [h] at hroot
      revert hroot
      decide
    have hserve : ServeMux.ServeHTTP mainMux r =
        if r.Method ≠ "CONNECT" ∧ cleanPath r.URL.EscapedPath ≠ r.URL.EscapedPath then
          Handler.redirect (cleanPath r.URL.EscapedPath) r.URL.RawQuery
        else Handler.fileServer "./static" := by
      unfold ServeMux.ServeHTTP
      rw [if_neg hstar, findHandler_rooted r hroot, matchTree_other _ hroot hpct h1 h2]
      rfl
    refine ⟨?_, ?_, ?_⟩
    · simp only [URL.Path, PathUnescape_id _ hpct, Option.getD_some]
    · rw [hserve]
      split <;> rfl
    · intro hc
      rw [hserve]
      simp [hc]

/-- Witness of the amended C8: `/api/tickers` and `/api/calculate` reach the
proxy handlers, `/index.html` is served from `./static`. -/
theorem mainMux_routing_witness :
    ServeMux.ServeHTTP mainMux (getRequest "/api/tickers" "") = Handler.tickersHandler ∧
    ServeMux.ServeHTTP mainMux (getRequest "/api/calculate" "benchmark_ticker=SPY")
      = Handler.calculateHandler ∧
    (ServeMux.ServeHTTP mainMux (getRequest "/api/../api/tickers" "")).isProxy = false ∧
    ServeMux.ServeHTTP mainMux (getRequest "/index.html" "") = Handler.fileServer "./static" :=
  ⟨((mainMux_routing (getRequest "/api/tickers" "")).1 rfl).2,
   ((mainMux_routing (getRequest "/api/calculate" "benchmark_ticker=SPY")).2.1 rfl).2,
   ((mainMux_routing (getRequest "/api/../api/tickers" "")).2.2
      (by decide) (by decide) (by decide) (by decide)).2.1,
   ((mainMux_routing (getRequest "/index.html" "")).2.2
      (by decide) (by decide) (by decide) (by decide)).2.2 (by decide)⟩

/-- C10: the outbound query, read by the rules of `url.ParseQuery`, does not
always carry the value back.  The value
`SPY&x=1`, received as `benchmark_ticker=SPY%26x%3D1`, goes out unescaped in a
single GET, and the query of that request reads `benchmark_ticker=SPY` and an
extra parameter `x=1` that the caller's request did not have.  In general, for
a base URL `B` without `?` and `#` and a non-empty value `X`: when `X` holds
one of `&`, `;`, `#`, `+`, `%`, whatever query goes out, its first
`benchmark_ticker` differs from `X`; when `X` holds none of them and
`http.Get` does not reject the URL, the query that goes out is exactly the one
parameter `benchmark_ticker = X`. -/
theorem outbound_query_round_trip :
    ((getRequest "/api/calculate" "benchmark_ticker=SPY%26x%3D1").URL.Query
        = [("benchmark_ticker", "SPY&x=1")] ∧
      outboundGETs nwPlain (serve (calculateHandler (Network.Get nwPlain)) (World.initial [])
          (getRequest "/api/calculate" "benchmark_ticker=SPY%26x%3D1")).1
        = ["http://python-server:8001/calculate?benchmark_ticker=SPY&x=1"] ∧
      outboundQuery nwPlain "http://python-server:8001/calculate?benchmark_ticker=SPY&x=1"
        = some [("benchmark_ticker", "SPY"), ("x", "1")]) ∧
    ∀ (nw : Network) (B X : String), (∀ c ∈ B.data, c ≠ '?' ∧ c ≠ '#') → X ≠ "" →
      ((∃ c ∈ X.data, queryReserved c = true) →
        ∀ q, outboundQuery nw (B ++ "/calculate?benchmark_ticker=" ++ X) = some q →
          Values.Get q "benchmark_ticker" ≠ X) ∧
      ((∀ c ∈ X.data, queryReserved c = false) →
        Network.rejected nw (B ++ "/calculate?benchmark_ticker=" ++ X) = none →
        outboundQuery nw (B ++ "/calculate?benchmark_ticker=" ++ X)
          = some [("benchmark_ticker", X)]) := by
  refine ⟨⟨by decide, by decide, by decide⟩, ?_⟩
  intro nw B X hB hne
  constructor
  · intro hX q hq
    unfold outboundQuery at hq
    split at hq
    · cases hq
    · rename_i hacc
      rw [parseRawQuery_accepted nw _ hacc] at hq
      cases hq
      exact sentQuery_reserved B X hB hne hX
  · intro hX hacc
    unfold outboundQuery
    rw [hacc]
    simp only [parseRawQuery_accepted nw _ hacc, Option.map_some',
      sentQuery_clean B X hB hX]

/-- Witness of C10: `BRK+B` comes back as something else, `SPY` comes back as
it was sent. -/
theorem outbound_query_round_trip_witness :
    (∀ q, outboundQuery nwPlain ("http://python-server:8001" ++
        "/calculate?benchmark_ticker=" ++ "BRK+B") = some q →
      Values.Get q "benchmark_ticker" ≠ "BRK+B") ∧
    outboundQuery nwPlain ("http://python-server:8001" ++ "/calculate?benchmark_ticker=" ++
        "SPY") = some [("benchmark_ticker", "SPY")] :=
  ⟨(outbound_query_round_trip.2 nwPlain "http://python-server:8001" "BRK+B"
      (by decide) (by decide)).1 ⟨'+', by decide, by decide⟩,
   (outbound_query_round_trip.2 nwPlain "http://python-server:8001" "SPY"
      (by decide) (by decide)).2 (by decide) (by decide)⟩

end TradersDashboard
